import Mathlib

/-!
# Verification of the system-log-parser repository (src/main.py)

Shallow embedding of the line parser (the two regex patterns), the
timestamp normalizer (datetime.strptime over the four formats plus the
comma-truncation fallback), and the aggregation / sorting pipeline of
src/main.py, together with theorems settling the specification claims.

Modelling conventions:
* Python `datetime` values are a structure of seven natural numbers
  (year, month, day, hour, minute, second, microsecond); comparison is
  lexicographic on those fields, as in CPython.
* Regex whitespace (the Python class backslash-s) and `str.strip()` are
  modelled over the ASCII whitespace characters; the level token class
  `[A-Z]` and digit class are the literal ASCII ranges of the patterns.
  All inputs of interest are ASCII, so this agrees with CPython.
* `datetime.strptime` is modelled after CPython's `_strptime`: each
  directive is the alternation used by `TimeRE` (so one- or two-digit
  months, leap-second tolerant `%S`, a final length check that rejects
  unconverted trailing data, and a value check corresponding to the
  `datetime` constructor's range validation, which raises `ValueError`
  like a failed regex match and is caught by the caller's `except`).
-/

namespace LogParser

/-- Python `datetime.datetime` value (naive, no tzinfo), as produced by
`datetime.strptime` in src/main.py. -/
structure DateTime where
  year : Nat
  month : Nat
  day : Nat
  hour : Nat
  minute : Nat
  second : Nat
  microsecond : Nat
deriving DecidableEq, Repr

/-- Python datetime comparison `a < b`: lexicographic on the fields. -/
def DateTime.lt (a b : DateTime) : Prop :=
  a.year < b.year ∨ (a.year = b.year ∧
    (a.month < b.month ∨ (a.month = b.month ∧
      (a.day < b.day ∨ (a.day = b.day ∧
        (a.hour < b.hour ∨ (a.hour = b.hour ∧
          (a.minute < b.minute ∨ (a.minute = b.minute ∧
            (a.second < b.second ∨ (a.second = b.second ∧
              a.microsecond < b.microsecond)))))))))))

instance (a b : DateTime) : Decidable (DateTime.lt a b) := by
  unfold DateTime.lt; infer_instance

/-- Python datetime comparison `a <= b`. -/
def DateTime.le (a b : DateTime) : Prop := DateTime.lt a b ∨ a = b

instance (a b : DateTime) : Decidable (DateTime.le a b) := by
  unfold DateTime.le; infer_instance

theorem DateTime.lt_irrefl (a : DateTime) : ¬ DateTime.lt a a := by
  unfold DateTime.lt; omega

theorem DateTime.lt_asymm {a b : DateTime} (h : DateTime.lt a b) :
    ¬ DateTime.lt b a := by
  unfold DateTime.lt at *; omega

theorem DateTime.lt_trans {a b c : DateTime} (h1 : DateTime.lt a b)
    (h2 : DateTime.lt b c) : DateTime.lt a c := by
  unfold DateTime.lt at *; omega

theorem DateTime.lt_total (a b : DateTime) :
    DateTime.lt a b ∨ a = b ∨ DateTime.lt b a := by
  cases a; cases b
  simp only [DateTime.lt, DateTime.mk.injEq]
  omega

/-! ## Character classes of the patterns in src/main.py -/

/-- ASCII digit, the class `[0-9]` of the regex patterns. -/
def isDig (c : Char) : Bool := decide (48 ≤ c.toNat ∧ c.toNat ≤ 57)

/-- ASCII uppercase letter, the class `[A-Z]` of the regex patterns. -/
def isUpp (c : Char) : Bool := decide (65 ≤ c.toNat ∧ c.toNat ≤ 90)

/-- Whitespace as matched by the regex class `\s` and stripped by
`str.strip()` (ASCII subset: space, tab, newline, carriage return,
vertical tab, form feed). -/
def isSpc (c : Char) : Bool :=
  c = ' ' || c = '\t' || c = '\n' || c = '\r' ||
  c = Char.ofNat 11 || c = Char.ofNat 12

/-- Numeric value of an ASCII digit character. -/
def dval (c : Char) : Nat := c.toNat - 48

/-- `str.strip()`: remove leading and trailing whitespace. -/
def pstrip (l : List Char) : List Char :=
  ((l.dropWhile isSpc).reverse.dropWhile isSpc).reverse

/-- `line.rstrip("\n")`: remove all trailing newline characters
(src/main.py line 77). -/
def rstripNL (l : List Char) : List Char :=
  (l.reverse.dropWhile (fun c => c = '\n')).reverse

/-! ## The strptime model (Timestamp Normalizer)

CPython's `_strptime` compiles a format string into a regex: each
whitespace run in the format becomes one-or-more-whitespace, each
directive becomes the `TimeRE` alternation, and a literal character
matches itself (case-insensitively, which only matters for `T`).
The compiled regex is matched at the start of the string; afterwards,
`strptime` raises `ValueError` if data remains unconverted, and the
`datetime` constructor raises `ValueError` if a field is out of range.
`FItem` is one compiled format element; `runFmt` is the backtracking
regex matcher for a compiled format. -/

/-- One element of a compiled strptime format. `two vTwo vOne` is a
`TimeRE` alternation that prefers a two-digit value satisfying `vTwo`
and falls back to a one-digit value satisfying `vOne` (this is the
shape of `%m`, `%d`, `%H`, `%M`, `%S`). `y4` is `%Y` (exactly four
digits), `lit` a literal, `litT` the case-insensitive literal `T`,
`ws` a whitespace run in the format (one or more whitespace in the
data), and `frac` is `%f` (one to six digits, right-padded). -/
inductive FItem where
  | y4 : FItem
  | two (vTwo vOne : Nat → Bool) : FItem
  | lit (c : Char) : FItem
  | litT : FItem
  | ws : FItem
  | frac : FItem

/-- Value of a `%f` capture: digits right-padded with zeros to six
places (`_strptime` does `s += "0" * (6 - len(s))`). -/
def fracVal (ds : List Char) : Nat :=
  (ds.foldl (fun a c => a * 10 + dval c) 0) * 10 ^ (6 - ds.length)

/-- Run a compiled format against the character list, returning the
captured numeric values in format order and the unconsumed remainder.
The two-digit/one-digit backtracking of the `TimeRE` alternations is
explicit: the one-digit branch is tried only when the rest of the
format cannot be matched after the two-digit branch. The
"unconverted data remains" check is *not* part of the regex, so a
match can succeed with a nonempty remainder. -/
def runFmt : List FItem → List Char → Option (List Nat × List Char)
  | [], l => some ([], l)
  | .y4 :: rest, a :: b :: c :: d :: l =>
      if isDig a && isDig b && isDig c && isDig d then
        (runFmt rest l).map (fun p =>
          ((dval a * 1000 + dval b * 100 + dval c * 10 + dval d) :: p.1, p.2))
      else none
  | .y4 :: _, _ => none
  | .two vT vO :: rest, a :: b :: l =>
      match (if isDig a && isDig b && vT (dval a * 10 + dval b) then
               (runFmt rest l).map (fun p => ((dval a * 10 + dval b) :: p.1, p.2))
             else none) with
      | some r => some r
      | none =>
          if isDig a && vO (dval a) then
            (runFmt rest (b :: l)).map (fun p => (dval a :: p.1, p.2))
          else none
  | .two _ vO :: rest, [a] =>
      if isDig a && vO (dval a) then
        (runFmt rest []).map (fun p => (dval a :: p.1, p.2))
      else none
  | .two _ _ :: _, [] => none
  | .lit c :: rest, x :: l => if x = c then runFmt rest l else none
  | .lit _ :: _, [] => none
  | .litT :: rest, x :: l => if x = 'T' || x = 't' then runFmt rest l else none
  | .litT :: _, [] => none
  | .ws :: rest, x :: l => if isSpc x then runFmt rest (l.dropWhile isSpc) else none
  | .ws :: _, [] => none
  | .frac :: rest, l =>
      let ds := l.takeWhile isDig
      if ds.isEmpty then none
      else (runFmt rest (l.drop (min 6 ds.length))).map
        (fun p => (fracVal (ds.take 6) :: p.1, p.2))

/-- `%m`: `1[0-2]|0[1-9]` as two digits. -/
def vTwoM (n : Nat) : Bool := decide (1 ≤ n ∧ n ≤ 12)
/-- `%m` fallback `[1-9]`. -/
def vOne19 (n : Nat) : Bool := decide (1 ≤ n ∧ n ≤ 9)
/-- `%d`: `3[01]|[12]\d|0[1-9]` as two digits. -/
def vTwoD (n : Nat) : Bool := decide (1 ≤ n ∧ n ≤ 31)
/-- `%H`: `2[0-3]|[0-1]\d` as two digits. -/
def vTwoH (n : Nat) : Bool := decide (n ≤ 23)
/-- `%M`: `[0-5]\d` as two digits. -/
def vTwoMin (n : Nat) : Bool := decide (n ≤ 59)
/-- `%S`: `6[0-1]|[0-5]\d` as two digits (leap seconds allowed by the
regex; they are rejected later by the datetime constructor). -/
def vTwoS (n : Nat) : Bool := decide (n ≤ 61)
/-- One-digit fallback `\d` of `%H`, `%M`, `%S`. -/
def vOne09 (n : Nat) : Bool := decide (n ≤ 9)

/-- Compiled form of `"%Y-%m-%d %H:%M:%S"` (DATETIME_FORMATS[0]). -/
def fmt1Items : List FItem :=
  [.y4, .lit '-', .two vTwoM vOne19, .lit '-', .two vTwoD vOne19, .ws,
   .two vTwoH vOne09, .lit ':', .two vTwoMin vOne09, .lit ':', .two vTwoS vOne09]

/-- Compiled form of `"%Y-%m-%d %H:%M:%S,%f"` (DATETIME_FORMATS[1]). -/
def fmt2Items : List FItem := fmt1Items ++ [.lit ',', .frac]

/-- Compiled form of `"%Y-%m-%dT%H:%M:%S"` (DATETIME_FORMATS[2]). -/
def fmt3Items : List FItem :=
  [.y4, .lit '-', .two vTwoM vOne19, .lit '-', .two vTwoD vOne19, .litT,
   .two vTwoH vOne09, .lit ':', .two vTwoMin vOne09, .lit ':', .two vTwoS vOne09]

/-- Compiled form of `"%Y-%m-%dT%H:%M:%S.%f"` (DATETIME_FORMATS[3]). -/
def fmt4Items : List FItem := fmt3Items ++ [.lit '.', .frac]

/-- The DATETIME_FORMATS list of src/main.py, compiled. -/
def DATETIME_FORMATS : List (List FItem) := [fmt1Items, fmt2Items, fmt3Items, fmt4Items]

/-- Gregorian leap year, as in Python's `calendar`/`datetime`. -/
def isLeap (y : Nat) : Prop := y % 4 = 0 ∧ (y % 100 ≠ 0 ∨ y % 400 = 0)

instance (y : Nat) : Decidable (isLeap y) := by unfold isLeap; infer_instance

/-- Days in a month, as used by the `datetime` constructor. -/
def daysInMonth (y m : Nat) : Nat :=
  if m = 2 then (if isLeap y then 29 else 28)
  else if m = 4 ∨ m = 6 ∨ m = 9 ∨ m = 11 then 30
  else 31

/-- The `datetime(...)` constructor: `ValueError` (here: `none`) unless
every field is in range. -/
def mkDT (y m d h mi s f : Nat) : Option DateTime :=
  if 1 ≤ y ∧ y ≤ 9999 ∧ 1 ≤ m ∧ m ≤ 12 ∧ 1 ≤ d ∧ d ≤ daysInMonth y m ∧
     h ≤ 23 ∧ mi ≤ 59 ∧ s ≤ 59 ∧ f ≤ 999999 then
    some ⟨y, m, d, h, mi, s, f⟩
  else none

/-- Assemble the captured values of one of the four formats into a
datetime. The first six captures are Y m d H M S; a seventh, when the
format has `%f`, is the microsecond (default 0). -/
def buildDT : List Nat → Option DateTime
  | [y, m, d, h, mi, s] => mkDT y m d h mi s 0
  | [y, m, d, h, mi, s, f] => mkDT y m d h mi s f
  | _ => none

/-- `datetime.strptime(s, fmt)` for one compiled format: match the
compiled regex at the start, fail if data remains unconverted, then
construct the datetime (any `ValueError` is `none`). -/
def strptimeWith (items : List FItem) (l : List Char) : Option DateTime :=
  match runFmt items l with
  | some (vals, []) => buildDT vals
  | _ => none

/-- The `for fmt in DATETIME_FORMATS` loop of `try_parse_dt`: return
the first format that parses, each `ValueError` being caught. -/
def tryFormats : List (List FItem) → List Char → Option DateTime
  | [], _ => none
  | items :: rest, l =>
      match strptimeWith items l with
      | some d => some d
      | none => tryFormats rest l

/-- `try_parse_dt` of src/main.py (lines 60-73): try the four formats
in order; as a last resort, if the text contains a comma, truncate at
the first comma and parse the remainder with the first format; return
`None` if everything fails. -/
def try_parse_dt (s : String) : Option DateTime :=
  match tryFormats DATETIME_FORMATS s.toList with
  | some d => some d
  | none =>
      if s.toList.contains ',' then
        strptimeWith fmt1Items (s.toList.takeWhile (fun c => c ≠ ','))
      else none

/-! ## The Line Parser (the two regex patterns of src/main.py)

`PATTERN_BRACKET` is
`^\[(?P<ts>.+?)\]\s*(?P<level>[A-Z]+)\s*:\s*(?P<msg>.*)$` and
`PATTERN_SPACE` is
`^(?P<ts>\d{4}-\d{2}-\d{2}[ T]\d{2}:\d{2}:\d{2}(?:[,\.]\d{1,6})?)\s+(?P<level>[A-Z]+)\s+(?P<msg>.*)$`.
The matchers below implement Python `re.match` semantics for these two
patterns: `.` does not match a newline, `$` matches at the end of the
string or before one final trailing newline, the non-greedy `.+?`
tries the shortest timestamp first and grows it on failure (so the
closing bracket chosen is the first one from which the rest of the
pattern matches), and the greedy runs (`\s*`, `\s+`, `[A-Z]+`, `.*`)
are maximal-munch, which for these patterns is equivalent to full
backtracking because each run is followed by a character its class
cannot match. -/

/-- `.*$`: the message capture is everything up to the first newline;
the match succeeds only if nothing, or one final newline, follows. -/
def msgTail (l : List Char) : Option (List Char) :=
  let msg := l.takeWhile (fun c => c ≠ '\n')
  let rest := l.drop msg.length
  if rest = [] ∨ rest = ['\n'] then some msg else none

/-- The part of PATTERN_BRACKET after the closing bracket:
`\s*(?P<level>[A-Z]+)\s*:\s*(?P<msg>.*)$`, returning (level, msg). -/
def brRest (l : List Char) : Option (List Char × List Char) :=
  let r1 := l.dropWhile isSpc
  let lvl := r1.takeWhile isUpp
  if lvl.isEmpty then none
  else
    match (r1.drop lvl.length).dropWhile isSpc with
    | ':' :: r3 =>
        (msgTail (r3.dropWhile isSpc)).map (fun msg => (lvl, msg))
    | _ => none

/-- Scanning loop for the non-greedy `(?P<ts>.+?)\]` of
PATTERN_BRACKET: `acc` is the (reversed, nonempty-so-far) timestamp
capture; at each `]` the shortest-first strategy first tries to close
the bracket, and extends the capture when the rest fails. -/
def brLoop : List Char → List Char → Option (List Char × List Char × List Char)
  | acc, ']' :: r =>
      if acc.isEmpty then brLoop [']'] r
      else
        match brRest r with
        | some (lvl, msg) => some (acc.reverse, lvl, msg)
        | none => brLoop (']' :: acc) r
  | acc, c :: r => if c = '\n' then none else brLoop (c :: acc) r
  | _, [] => none

/-- `PATTERN_BRACKET.match(line)`: capture groups (ts, level, msg). -/
def matchBracket : List Char → Option (List Char × List Char × List Char)
  | '[' :: r => brLoop [] r
  | _ => none

/-- The part of PATTERN_SPACE after the timestamp:
`\s+(?P<level>[A-Z]+)\s+(?P<msg>.*)$`. -/
def spTail (ts : List Char) (l : List Char) :
    Option (List Char × List Char × List Char) :=
  if (l.takeWhile isSpc).isEmpty then none
  else
    let r1 := l.dropWhile isSpc
    let lvl := r1.takeWhile isUpp
    if lvl.isEmpty then none
    else
      let r2 := r1.drop lvl.length
      if (r2.takeWhile isSpc).isEmpty then none
      else (msgTail (r2.dropWhile isSpc)).map (fun msg => (ts, lvl, msg))

/-- `PATTERN_SPACE.match(line)`: the fixed-shape timestamp
`\d{4}-\d{2}-\d{2}[ T]\d{2}:\d{2}:\d{2}` with an optional fractional
suffix `(?:[,\.]\d{1,6})?`, then level and message. When the
delimiter after the seconds is followed by no digit or by more than
six digits, no alternative of the pattern matches (dropping the
optional group leaves `\s+` facing the delimiter), hence `none`. -/
def matchSpace : List Char → Option (List Char × List Char × List Char)
  | y1 :: y2 :: y3 :: y4 :: s1 :: mo1 :: mo2 :: s2 :: d1 :: d2 :: sep ::
      h1 :: h2 :: c1 :: mi1 :: mi2 :: c2 :: se1 :: se2 :: rest =>
      if isDig y1 && isDig y2 && isDig y3 && isDig y4 && s1 = '-' &&
         isDig mo1 && isDig mo2 && s2 = '-' && isDig d1 && isDig d2 &&
         (sep = ' ' || sep = 'T') && isDig h1 && isDig h2 && c1 = ':' &&
         isDig mi1 && isDig mi2 && c2 = ':' && isDig se1 && isDig se2 then
        let ts19 : List Char :=
          [y1, y2, y3, y4, s1, mo1, mo2, s2, d1, d2, sep,
           h1, h2, c1, mi1, mi2, c2, se1, se2]
        match rest with
        | c :: r =>
            if c = ',' || c = '.' then
              let ds := r.takeWhile isDig
              if 1 ≤ ds.length ∧ ds.length ≤ 6 then
                spTail (ts19 ++ c :: ds) (r.drop ds.length)
              else none
            else spTail ts19 rest
        | [] => none
      else none
  | _ => none

/-- `parse_line` of src/main.py (lines 76-86): strip trailing
newlines, try PATTERN_BRACKET then PATTERN_SPACE; on a match, strip
each capture, parse the timestamp text, and return
`(ts_or_None, level, msg)`; otherwise `(None, None, None)`. -/
def parse_line (line : String) :
    Option DateTime × Option String × Option String :=
  let l := rstripNL line.toList
  match matchBracket l with
  | some (ts, lvl, msg) =>
      (try_parse_dt (String.mk (pstrip ts)),
       some (String.mk (pstrip lvl)), some (String.mk (pstrip msg)))
  | none =>
      match matchSpace l with
      | some (ts, lvl, msg) =>
          (try_parse_dt (String.mk (pstrip ts)),
           some (String.mk (pstrip lvl)), some (String.mk (pstrip msg)))
      | none => (none, none, none)

/-! ## The Aggregator (`main` of src/main.py, lines 95-150)

`rows` is the list of matched records; `Counter` is modelled as an
association list in insertion order; the `first_seen`/`last_seen`
defaultdicts are modelled as functions `String → Option DateTime`
updated by the loop; the pandas multi-column `sort_values` (which for
several sort keys is a stable lexicographic sort with missing values
placed last within each key) is modelled as an insertion sort on
index-annotated entries, the index breaking remaining ties so that the
relation is a linear order and the sort is the unique stable one. -/

/-- `str.upper()` restricted to ASCII letters (levels and the
caller-supplied level names are ASCII). -/
def upperStr (s : String) : String :=
  String.mk (s.toList.map (fun c =>
    if 97 ≤ c.toNat ∧ c.toNat ≤ 122 then Char.ofNat (c.toNat - 32) else c))

/-- One element of `rows`: `(ts, level.upper(), msg)`. -/
abbrev Row := Option DateTime × String × String

/-- `allowed = set(l.upper() for l in args.levels)` with membership
tested by `List.contains`. -/
def mkAllowed (levels : List String) : List String := levels.map upperStr

/-- The reading loop of `main` (lines 101-107): parse every line, skip
lines with no match (`level is None`) and lines whose uppercased level
is not in the allowed set, collect the rest in order. -/
def mkRows (lines : List String) (levels : List String) : List Row :=
  lines.filterMap (fun line =>
    match parse_line line with
    | (ts, some lvl, some msg) =>
        if (mkAllowed levels).contains (upperStr lvl) then
          some (ts, upperStr lvl, msg)
        else none
    | _ => none)

/-- One `Counter` update: increment the entry for `m`, or append a new
entry with count 1 (dict insertion order). -/
def bump : List (String × Nat) → String → List (String × Nat)
  | [], m => [(m, 1)]
  | (k, c) :: t, m => if k = m then (k, c + 1) :: t else (k, c) :: bump t m

/-- `counts = Counter(msg for _, _, msg in rows)` (line 114): message
counts in first-encounter order. -/
def countsFold (rows : List Row) : List (String × Nat) :=
  rows.foldl (fun acc r => bump acc r.2.2) []

/-- One iteration of the first/last-seen loop (lines 118-124): a row
without a timestamp is skipped; otherwise the minimum and maximum for
its message are updated. -/
def seenStep (fl : (String → Option DateTime) × (String → Option DateTime))
    (r : Row) : (String → Option DateTime) × (String → Option DateTime) :=
  match r.1 with
  | none => fl
  | some ts =>
      (fun m => if m = r.2.2 then
          (match fl.1 r.2.2 with
           | none => some ts
           | some cur => if DateTime.lt ts cur then some ts else some cur)
        else fl.1 m,
       fun m => if m = r.2.2 then
          (match fl.2 r.2.2 with
           | none => some ts
           | some cur => if DateTime.lt cur ts then some ts else some cur)
        else fl.2 m)

/-- The `first_seen`/`last_seen` defaultdicts after the loop. -/
def seenFold (rows : List Row) :
    (String → Option DateTime) × (String → Option DateTime) :=
  rows.foldl seenStep (fun _ => none, fun _ => none)

/-- One row of the summary DataFrame (lines 127-134). -/
structure MessageStat where
  message : String
  count : Nat
  first_seen : Option DateTime
  last_seen : Option DateTime
deriving DecidableEq, Repr

/-- The `data` list (lines 127-134): one MessageStat per counts entry,
in counts (= first-encounter) order. -/
def dataList (rows : List Row) : List MessageStat :=
  (countsFold rows).map (fun p =>
    ⟨p.1, p.2, (seenFold rows).1 p.1, (seenFold rows).2 p.1⟩)

/-- Descending comparison of `Last Seen` cells: a defined value is
later than an absent one (pandas keeps missing values last within the
key), and two defined values compare as datetimes. -/
def lsAfter : Option DateTime → Option DateTime → Prop
  | some u, some v => DateTime.lt v u
  | some _, none => True
  | none, _ => False

instance : ∀ x y : Option DateTime, Decidable (lsAfter x y)
  | some _, some _ => by unfold lsAfter; infer_instance
  | some _, none => by unfold lsAfter; infer_instance
  | none, some _ => by unfold lsAfter; infer_instance
  | none, none => by unfold lsAfter; infer_instance

/-- Strict sort precedence of line 138 on index-annotated entries:
larger `Count` first, then later `Last Seen` (absent last), then the
original (encounter) position — the tie-break making the stable
multi-key sort unique. -/
def rowBefore (a b : Nat × MessageStat) : Prop :=
  b.2.count < a.2.count ∨ (b.2.count = a.2.count ∧
    (lsAfter a.2.last_seen b.2.last_seen ∨
      (a.2.last_seen = b.2.last_seen ∧ a.1 < b.1)))

instance (a b : Nat × MessageStat) : Decidable (rowBefore a b) := by
  unfold rowBefore; infer_instance

/-- The non-strict relation the sort is performed with:
`a` need not come strictly before `b`. -/
def sortRel (a b : Nat × MessageStat) : Prop := ¬ rowBefore b a

instance (a b : Nat × MessageStat) : Decidable (sortRel a b) := by
  unfold sortRel; infer_instance

/-- `df.sort_values(by=["Count", "Last Seen"], ascending=[False, False])`
(line 138): the stable descending multi-key sort of the data list. -/
def sortStats (d : List MessageStat) : List MessageStat :=
  (List.insertionSort sortRel d.enum).map Prod.snd

/-- The high-level summary of lines 141-150 (the fields that are
datetimes or counts; the textual rendering is the writer's concern). -/
structure Overview where
  total_lines : Nat
  matched_entries : Nat
  unique_messages : Nat
  range_start : Option DateTime
  range_end : Option DateTime
  levels_included : List String
deriving DecidableEq, Repr

/-- `min(...)` over the defined first-seen values (line 141); Python
`min` keeps the first of equal elements. -/
def optMinDT (xs : List DateTime) : Option DateTime :=
  xs.foldl (fun acc t =>
    match acc with
    | none => some t
    | some c => if DateTime.lt t c then some t else some c) none

/-- `max(...)` over the defined last-seen values (line 142). -/
def optMaxDT (xs : List DateTime) : Option DateTime :=
  xs.foldl (fun acc t =>
    match acc with
    | none => some t
    | some c => if DateTime.lt c t then some t else some c) none

/-- The aggregation pipeline of `main` (lines 95-150) on the decoded
lines: `none` is the empty-result outcome of lines 109-111 (the
function returns before any table is built); otherwise the sorted
summary table and the overview. -/
def processLines (lines : List String) (levels : List String) :
    Option (List MessageStat × Overview) :=
  let rows := mkRows lines levels
  if rows = [] then none
  else
    let counts := countsFold rows
    some (sortStats (dataList rows),
      { total_lines := lines.length
        matched_entries := rows.length
        unique_messages := counts.length
        range_start := optMinDT (counts.filterMap (fun p => (seenFold rows).1 p.1))
        range_end := optMaxDT (counts.filterMap (fun p => (seenFold rows).2 p.1))
        levels_included := mkAllowed levels })

/-! ## Decoding (src/main.py line 100)

The file is opened with `encoding="utf-8", errors="ignore"`. The
decoder below is the incremental UTF-8 decoder of CPython: an invalid
start byte is an error of one byte; an incomplete or invalid sequence
is an error covering the start byte and the valid continuation bytes
before the offending position (the maximal subpart). The boolean
chooses the error handler: `true` substitutes U+FFFD for each error
(`errors="replace"`, the behaviour the spec describes), `false` drops
the offending bytes (`errors="ignore"`, the behaviour the code
selects). Either way the decode never aborts. -/

/-- Is `b` a UTF-8 continuation byte (0x80-0xBF)? -/
def isCont (b : Nat) : Prop := 128 ≤ b ∧ b ≤ 191

instance (b : Nat) : Decidable (isCont b) := by unfold isCont; infer_instance

/-- Outcome of one decoding error: the replacement handler prepends
U+FFFD to the decode of the remaining bytes, the ignore handler
prepends nothing. -/
def errOut (repl : Bool) (tail : List Char) : List Char :=
  if repl then Char.ofNat 0xFFFD :: tail else tail

/-- UTF-8 decode with error handler: `repl = true` emits U+FFFD per
error, `repl = false` ignores the erroneous bytes. -/
def decodeUtf8 (repl : Bool) : List Nat → List Char
  | [] => []
  | b :: r =>
    let err : List Char → List Char := errOut repl
    if b ≤ 127 then Char.ofNat b :: decodeUtf8 repl r
    else if 194 ≤ b ∧ b ≤ 223 then
      match r with
      | c :: r2 =>
          if isCont c then Char.ofNat ((b - 192) * 64 + (c - 128)) :: decodeUtf8 repl r2
          else err (decodeUtf8 repl (c :: r2))
      | [] => err []
    else if 224 ≤ b ∧ b ≤ 239 then
      -- the admissible range of the first continuation byte depends on b
      let lo : Nat := if b = 224 then 160 else 128
      let hi : Nat := if b = 237 then 159 else 191
      match r with
      | c :: r2 =>
          if lo ≤ c ∧ c ≤ hi then
            match r2 with
            | c2 :: r3 =>
                if isCont c2 then
                  Char.ofNat ((b - 224) * 4096 + (c - 128) * 64 + (c2 - 128)) ::
                    decodeUtf8 repl r3
                else err (decodeUtf8 repl (c2 :: r3))
            | [] => err []
          else err (decodeUtf8 repl (c :: r2))
      | [] => err []
    else if 240 ≤ b ∧ b ≤ 244 then
      let lo : Nat := if b = 240 then 144 else 128
      let hi : Nat := if b = 244 then 143 else 191
      match r with
      | c :: r2 =>
          if lo ≤ c ∧ c ≤ hi then
            match r2 with
            | c2 :: r3 =>
                if isCont c2 then
                  match r3 with
                  | c3 :: r4 =>
                      if isCont c3 then
                        Char.ofNat ((b - 240) * 262144 + (c - 128) * 4096 +
                          (c2 - 128) * 64 + (c3 - 128)) :: decodeUtf8 repl r4
                      else err (decodeUtf8 repl (c3 :: r4))
                  | [] => err []
                else err (decodeUtf8 repl (c2 :: r3))
            | [] => err []
          else err (decodeUtf8 repl (c :: r2))
      | [] => err []
    else err (decodeUtf8 repl r)

/-- Decoding as the code performs it: `errors="ignore"`. -/
def decodeIgnore (bs : List Nat) : List Char := decodeUtf8 false bs

/-- Decoding as the spec describes it: `errors="replace"`. -/
def decodeReplace (bs : List Nat) : List Char := decodeUtf8 true bs

/-! ## Formatting (for the round-trip claim)

Modelled from the spec: "a string produced by formatting a DateTime in
any of the four supported templates" — src/main.py never formats with
these templates, so `strftime` over the four DATETIME_FORMATS entries
is modelled here, with every numeric field zero-padded to its
conventional width (4 for the year, 2 for month through second, 6 for
the microseconds). -/

/-- Digit character of a value below ten. -/
def dch : Nat → Char
  | 0 => '0' | 1 => '1' | 2 => '2' | 3 => '3' | 4 => '4'
  | 5 => '5' | 6 => '6' | 7 => '7' | 8 => '8' | _ => '9'

/-- Two-digit zero-padded rendering (n < 100). -/
def pad2 (n : Nat) : List Char := [dch (n / 10), dch (n % 10)]

/-- Four-digit zero-padded rendering (n < 10000). -/
def pad4 (n : Nat) : List Char :=
  [dch (n / 1000), dch (n / 100 % 10), dch (n / 10 % 10), dch (n % 10)]

/-- Six-digit zero-padded rendering (n < 1000000). -/
def pad6 (n : Nat) : List Char :=
  [dch (n / 100000), dch (n / 10000 % 10), dch (n / 1000 % 10),
   dch (n / 100 % 10), dch (n / 10 % 10), dch (n % 10)]

/-- The date-and-time core `YYYY-MM-DD?HH:MM:SS` shared by the four
templates, with the given separator. -/
def fmtCore (sep : Char) (d : DateTime) : List Char :=
  pad4 d.year ++ '-' :: pad2 d.month ++ '-' :: pad2 d.day ++ sep ::
    pad2 d.hour ++ ':' :: pad2 d.minute ++ ':' :: pad2 d.second

/-- strftime with `"%Y-%m-%d %H:%M:%S"`. -/
def fmtT1 (d : DateTime) : String := String.mk (fmtCore ' ' d)

/-- strftime with `"%Y-%m-%d %H:%M:%S,%f"`. -/
def fmtT2 (d : DateTime) : String :=
  String.mk (fmtCore ' ' d ++ ',' :: pad6 d.microsecond)

/-- strftime with `"%Y-%m-%dT%H:%M:%S"`. -/
def fmtT3 (d : DateTime) : String := String.mk (fmtCore 'T' d)

/-- strftime with `"%Y-%m-%dT%H:%M:%S.%f"`. -/
def fmtT4 (d : DateTime) : String :=
  String.mk (fmtCore 'T' d ++ '.' :: pad6 d.microsecond)

/-- A `DateTime` that a Python `datetime` value can hold (the
constructor's invariants). -/
def DateTime.valid (d : DateTime) : Prop :=
  1 ≤ d.year ∧ d.year ≤ 9999 ∧ 1 ≤ d.month ∧ d.month ≤ 12 ∧
  1 ≤ d.day ∧ d.day ≤ daysInMonth d.year d.month ∧
  d.hour ≤ 23 ∧ d.minute ≤ 59 ∧ d.second ≤ 59 ∧ d.microsecond ≤ 999999

instance (d : DateTime) : Decidable d.valid := by
  unfold DateTime.valid; infer_instance

/-! ## Exception-explicit model of `try_parse_dt` (for the safety claim)

`datetime.strptime` communicates failure by raising `ValueError`; the
loop of `try_parse_dt` catches exactly `ValueError`, and the comma
fallback is wrapped in a bare `except Exception`. The model below
makes the exception flow explicit: `Except.error` is an exception
propagating out of `try_parse_dt`. -/

/-- The exceptions of the Python code. -/
inductive PyExc where
  | valueError : PyExc
deriving DecidableEq, Repr

/-- `datetime.strptime` raising `ValueError` on failure. -/
def strptimeE (items : List FItem) (l : List Char) : Except PyExc DateTime :=
  match strptimeWith items l with
  | some d => Except.ok d
  | none => Except.error PyExc.valueError

/-- The format loop with its `except ValueError: continue`. -/
def tryFormatsE : List (List FItem) → List Char → Except PyExc (Option DateTime)
  | [], _ => Except.ok none
  | items :: rest, l =>
      match strptimeE items l with
      | Except.ok d => Except.ok (some d)
      | Except.error PyExc.valueError => tryFormatsE rest l

/-- The bare `except Exception: pass` around the comma fallback: any
exception is swallowed and the overall result becomes `None`. -/
def catchAllToNone (e : Except PyExc DateTime) : Except PyExc (Option DateTime) :=
  match e with
  | Except.ok d => Except.ok (some d)
  | Except.error _ => Except.ok none

/-- `try_parse_dt` with explicit exception flow: the loop catches
`ValueError`; the comma fallback is inside `try ... except Exception:
pass`, so any exception it raises is swallowed and `None` returned. -/
def tryParseDtE (s : String) : Except PyExc (Option DateTime) :=
  match tryFormatsE DATETIME_FORMATS s.toList with
  | Except.error e => Except.error e
  | Except.ok (some d) => Except.ok (some d)
  | Except.ok none =>
      if s.toList.contains ',' then
        catchAllToNone (strptimeE fmt1Items (s.toList.takeWhile (fun c => c ≠ ',')))
      else Except.ok none

/-! ## Claim C8: the empty-result outcome -/

/-- C8: for every input whose full pass matches zero entries, `main`
takes the `if not rows` branch (lines 109-111) and returns before any
table or report is built — and only then: a nonempty `rows` always
produces a table. `processLines = none` is exactly that distinct
empty-result outcome. -/
theorem emptyResult_c8 (lines levels : List String) :
    processLines lines levels = none ↔ mkRows lines levels = [] := by
  unfold processLines
  by_cases h : mkRows lines levels = [] <;> simp [h]

/-! ## Claim C6: `try_parse_dt` is total and never raises -/

/-- The format loop never lets an exception escape: every `ValueError`
from `strptime` is caught by `except ValueError: continue`. -/
theorem tryFormatsE_ok (fmts : List (List FItem)) (l : List Char) :
    tryFormatsE fmts l = Except.ok (tryFormats fmts l) := by
  induction fmts with
  | nil => rfl
  | cons items rest ih =>
      unfold tryFormatsE tryFormats strptimeE
      cases h : strptimeWith items l <;> simp [h, ih]

/-- C6: `try_parse_dt` always terminates with `Except.ok` — either a
DateTime or the absent value — and the value is the one computed by
the pure model: no input string reaches an uncaught exception. -/
theorem tryParseDt_total_c6 (s : String) :
    tryParseDtE s = Except.ok (try_parse_dt s) := by
  unfold tryParseDtE try_parse_dt
  rw [tryFormatsE_ok]
  cases h : tryFormats DATETIME_FORMATS s.toList with
  | some d => rfl
  | none =>
      have hcatch : ∀ (l : List Char), catchAllToNone (strptimeE fmt1Items l) =
          Except.ok (strptimeWith fmt1Items l) := by
        intro l
        unfold catchAllToNone strptimeE
        cases strptimeWith fmt1Items l <;> rfl
      show (if s.toList.contains ',' then _ else _) =
        Except.ok (if s.toList.contains ',' then _ else _)
      split
      · rw [hcatch]
      · rfl

/-! ## Claim C9: decoding errors (line 100)

The code opens the file with `errors="ignore"`, which *drops* the
undecodable bytes; the claim says a replacement character is
substituted, which is the `errors="replace"` handler — a different
one. -/

/-- C9 counterexample: on the byte sequence `41 FF 42`, the code's
decoder (`errors="ignore"`) yields `"AB"` — the invalid byte is
dropped and no replacement character appears — whereas the behaviour
the claim describes (`errors="replace"`) would yield `"A� B"`. -/
theorem decode_c9_counterexample :
    decodeIgnore [65, 255, 66] = ['A', 'B'] ∧
    decodeReplace [65, 255, 66] = ['A', Char.ofNat 0xFFFD, 'B'] ∧
    decodeIgnore [65, 255, 66] ≠ decodeReplace [65, 255, 66] := by
  refine ⟨by decide, by decide, by decide⟩

/-- C9 (amended): a decoding error is tolerated by *dropping* the
offending bytes rather than aborting the read: after an invalid byte
the decode continues with the remaining bytes, while the replacement
handler would have inserted U+FFFD at that point. -/
theorem decode_c9 (bs : List Nat) :
    decodeIgnore (65 :: 255 :: bs) = 'A' :: decodeIgnore bs ∧
    decodeReplace (65 :: 255 :: bs) =
      'A' :: Char.ofNat 0xFFFD :: decodeReplace bs := by
  constructor <;>
    · simp only [decodeIgnore, decodeReplace]
      conv_lhs => rw [decodeUtf8.eq_def]
      norm_num
      conv_lhs => rw [decodeUtf8.eq_def]
      norm_num [errOut]

/-! ## Claim C4: scenario 2 -/

/-- The record produced for scenario 2: the fractional suffix `,123`
is parsed by the `%f` directive into 123000 microseconds. -/
def dtScenario2 : DateTime := ⟨2025, 8, 14, 10, 22, 45, 123000⟩

/-- C4 counterexample: the single record produced for
`"2025-08-14 10:22:45,123 WARNING Low memory"` does *not* carry the
timestamp `2025-08-14T10:22:45` (microsecond 0) the claim names: its
timestamp has microsecond 123000. -/
theorem scenario2_c4_counterexample :
    mkRows ["2025-08-14 10:22:45,123 WARNING Low memory"] ["WARNING"] ≠
      [(some ⟨2025, 8, 14, 10, 22, 45, 0⟩, "WARNING", "Low memory")] := by
  decide

/-- C4 (amended): processing the line
`"2025-08-14 10:22:45,123 WARNING Low memory"` with allowed levels
`{WARNING}` produces exactly one record, with timestamp
`2025-08-14T10:22:45.123000` (the fractional-second suffix parsed
into microseconds), level `WARNING`, and message `Low memory`. -/
theorem scenario2_c4 :
    mkRows ["2025-08-14 10:22:45,123 WARNING Low memory"] ["WARNING"] =
      [(some dtScenario2, "WARNING", "Low memory")] := by
  decide

/-! ## Claim C5: the `parse_line` contract

The claim says the first component returned for a bracketed line is
the timestamp *text* `T`. In the code, `parse_line` feeds the
timestamp text through `try_parse_dt` and returns the resulting
datetime-or-None; the text itself is not returned. -/

/-- C5 counterexample: two bracketed lines whose timestamp texts
differ (`foo` vs `bar`) produce *identical* `parse_line` results, so
`parse_line` cannot be returning the timestamp text `T` as the claim
states — the text is consumed by `try_parse_dt` (and here lost, both
texts being unparseable). -/
theorem parse_line_c5_counterexample :
    matchBracket ("[foo] ERROR: x".toList) =
      some ("foo".toList, "ERROR".toList, "x".toList) ∧
    matchBracket ("[bar] ERROR: x".toList) =
      some ("bar".toList, "ERROR".toList, "x".toList) ∧
    parse_line "[foo] ERROR: x" = parse_line "[bar] ERROR: x" ∧
    parse_line "[foo] ERROR: x" = (none, some "ERROR", some "x") := by
  refine ⟨by decide, by decide, by decide, by decide⟩

/-- C5 (amended): for every line matching the bracketed shape
`[T] L: M`, `parse_line` returns the triple
`(parse_timestamp(T trimmed), L trimmed, M trimmed)` — the timestamp
text is trimmed and then normalized to a DateTime (absent when
unparseable) rather than returned as text, while the level token and
the message are returned as text with surrounding whitespace trimmed;
for every line matching neither pattern it signals NO_MATCH with
level and message absent. -/
theorem parse_line_c5 :
    (∀ (line : String) (ts lvl msg : List Char),
        matchBracket (rstripNL line.toList) = some (ts, lvl, msg) →
        parse_line line = (try_parse_dt (String.mk (pstrip ts)),
          some (String.mk (pstrip lvl)), some (String.mk (pstrip msg)))) ∧
    (∀ line : String,
        matchBracket (rstripNL line.toList) = none →
        matchSpace (rstripNL line.toList) = none →
        parse_line line = (none, none, none)) := by
  constructor
  · intro line ts lvl msg h
    simp only [parse_line, h]
  · intro line h1 h2
    simp only [parse_line, h1, h2]

/-- C5 witness: the amended contract applied to a concrete bracketed
line with padding whitespace in every component. -/
theorem parse_line_c5_witness :
    parse_line "[ 2025-08-14 10:22:45 ]  ERROR :  Disk full " =
      (some ⟨2025, 8, 14, 10, 22, 45, 0⟩, some "ERROR", some "Disk full") := by
  have h := parse_line_c5.1 "[ 2025-08-14 10:22:45 ]  ERROR :  Disk full "
    (" 2025-08-14 10:22:45 ".toList) ("ERROR".toList) ("Disk full ".toList)
    (by decide)
  rw [h]
  decide

/-! ## The first/last-seen invariant (claims C7 and C10) -/

theorem DateTime.le_refl (a : DateTime) : DateTime.le a a := Or.inr rfl

theorem DateTime.le_of_lt {a b : DateTime} (h : DateTime.lt a b) :
    DateTime.le a b := Or.inl h

theorem DateTime.le_trans {a b c : DateTime} (h1 : DateTime.le a b)
    (h2 : DateTime.le b c) : DateTime.le a c := by
  rcases h1 with h1 | rfl
  · rcases h2 with h2 | rfl
    · exact Or.inl (DateTime.lt_trans h1 h2)
    · exact Or.inl h1
  · exact h2

/-- Invariant of the two defaultdicts: for every message, either both
are unset or both are set with first ≤ last. -/
def SeenInv (fl : (String → Option DateTime) × (String → Option DateTime)) : Prop :=
  ∀ m, (fl.1 m = none ∧ fl.2 m = none) ∨
    ∃ a b, fl.1 m = some a ∧ fl.2 m = some b ∧ DateTime.le a b

theorem seenStep_inv (fl : (String → Option DateTime) × (String → Option DateTime))
    (r : Row) (h : SeenInv fl) : SeenInv (seenStep fl r) := by
  obtain ⟨ots, lvl, msg⟩ := r
  cases ots with
  | none => exact h
  | some ts =>
      intro m
      by_cases hm : m = msg
      · simp only [seenStep, hm, if_pos]
        rcases h msg with ⟨h1, h2⟩ | ⟨a, b, ha, hb, hab⟩
        · rw [h1, h2]
          exact Or.inr ⟨ts, ts, rfl, rfl, DateTime.le_refl ts⟩
        · rw [ha, hb]
          right
          by_cases hta : DateTime.lt ts a <;> by_cases hbt : DateTime.lt b ts
          · exact ⟨ts, ts, by simp [hta, hbt], by simp [hta, hbt], DateTime.le_refl ts⟩
          · exact ⟨ts, b, by simp [hta], by simp [hbt],
              DateTime.le_trans (DateTime.le_of_lt hta) hab⟩
          · exact ⟨a, ts, by simp [hta], by simp [hbt],
              DateTime.le_trans hab (DateTime.le_of_lt hbt)⟩
          · exact ⟨a, b, by simp [hta], by simp [hbt], hab⟩
      · simp only [seenStep, hm, if_neg, if_false]
        exact h m

theorem seenFold_go_inv (rows : List Row) :
    ∀ s, SeenInv s → SeenInv (rows.foldl seenStep s) := by
  induction rows with
  | nil => intro s hs; exact hs
  | cons r rest ih => intro s hs; exact ih (seenStep s r) (seenStep_inv s r hs)

theorem seenFold_inv (rows : List Row) : SeenInv (seenFold rows) :=
  seenFold_go_inv rows _ (fun _ => Or.inl ⟨rfl, rfl⟩)

/-- The sorted table is a permutation of the data list. -/
theorem sortStats_perm (d : List MessageStat) : (sortStats d).Perm d := by
  unfold sortStats
  have h := (List.perm_insertionSort sortRel d.enum).map Prod.snd
  rwa [List.enum_map_snd] at h

/-- Every entry of the table produced by `processLines` is the
MessageStat built from one counts entry, its seen fields read off the
two defaultdicts at its message. -/
theorem table_mem {lines levels : List String} {t : List MessageStat} {ov : Overview}
    (h : processLines lines levels = some (t, ov)) {s : MessageStat} (hs : s ∈ t) :
    ∃ p : String × Nat, p ∈ countsFold (mkRows lines levels) ∧
      s.message = p.1 ∧ s.count = p.2 ∧
      s.first_seen = (seenFold (mkRows lines levels)).1 p.1 ∧
      s.last_seen = (seenFold (mkRows lines levels)).2 p.1 := by
  unfold processLines at h
  by_cases hr : mkRows lines levels = []
  · simp [hr] at h
  · simp only [hr, if_false, if_neg, Option.some_inj] at h
    have ht : t = sortStats (dataList (mkRows lines levels)) :=
      (congrArg Prod.fst h).symm
    rw [ht] at hs
    have hd := ((sortStats_perm (dataList (mkRows lines levels))).mem_iff).1 hs
    unfold dataList at hd
    obtain ⟨p, hp, hsp⟩ := List.mem_map.1 hd
    refine ⟨p, hp, ?_, ?_, ?_, ?_⟩ <;> rw [← hsp]

/-- C7: for every MessageStat in the final table whose first-seen and
last-seen are both defined, first-seen is at most last-seen: both are
updated from the same parsed timestamp, one by min and one by max. -/
theorem firstLeLast_c7 (lines levels : List String) (t : List MessageStat)
    (ov : Overview) (h : processLines lines levels = some (t, ov))
    (s : MessageStat) (hs : s ∈ t) (a b : DateTime)
    (ha : s.first_seen = some a) (hb : s.last_seen = some b) :
    DateTime.le a b := by
  obtain ⟨p, hp, hmsg, hcnt, hfs, hls⟩ := table_mem h hs
  rcases seenFold_inv (mkRows lines levels) p.1 with ⟨h1, h2⟩ | ⟨x, y, hx, hy, hxy⟩
  · rw [hfs, h1] at ha; exact absurd ha (by simp)
  · rw [hfs, hx, Option.some_inj] at ha
    rw [hls, hy, Option.some_inj] at hb
    rw [← ha, ← hb]
    exact hxy

/-- C7 witness: the invariant evaluated on the two-line scenario 3
input: the single table entry has first-seen 10:00:00 ≤ last-seen
10:05:00. -/
theorem firstLeLast_c7_witness :
    DateTime.le ⟨2025, 8, 14, 10, 0, 0, 0⟩ ⟨2025, 8, 14, 10, 5, 0, 0⟩ :=
  firstLeLast_c7
    ["[2025-08-14 10:00:00] ERROR: Disk full", "[2025-08-14 10:05:00] ERROR: Disk full"]
    ["ERROR"]
    [⟨"Disk full", 2, some ⟨2025, 8, 14, 10, 0, 0, 0⟩, some ⟨2025, 8, 14, 10, 5, 0, 0⟩⟩]
    { total_lines := 2, matched_entries := 2, unique_messages := 1,
      range_start := some ⟨2025, 8, 14, 10, 0, 0, 0⟩,
      range_end := some ⟨2025, 8, 14, 10, 5, 0, 0⟩,
      levels_included := ["ERROR"] }
    (by decide)
    ⟨"Disk full", 2, some ⟨2025, 8, 14, 10, 0, 0, 0⟩, some ⟨2025, 8, 14, 10, 5, 0, 0⟩⟩
    (by decide) _ _ rfl rfl

/-- C10: in every MessageStat of the final table, first-seen is
defined exactly when last-seen is: each update of the loop of lines
118-124 sets both fields from the same parsed timestamp. -/
theorem seenTogether_c10 (lines levels : List String) (t : List MessageStat)
    (ov : Overview) (h : processLines lines levels = some (t, ov))
    (s : MessageStat) (hs : s ∈ t) :
    ((∃ a, s.first_seen = some a) ↔ (∃ b, s.last_seen = some b)) := by
  obtain ⟨p, hp, hmsg, hcnt, hfs, hls⟩ := table_mem h hs
  rcases seenFold_inv (mkRows lines levels) p.1 with ⟨h1, h2⟩ | ⟨x, y, hx, hy, hxy⟩
  · rw [hfs, h1, hls, h2]
  · rw [hfs, hx, hls, hy]
    exact ⟨fun _ => ⟨y, rfl⟩, fun _ => ⟨x, rfl⟩⟩

/-- C10 witness: on an input whose only record has an unparseable
timestamp, the table entry has both fields absent, and the
equivalence holds at it. -/
theorem seenTogether_c10_witness :
    (∃ a, (none : Option DateTime) = some a) ↔
      (∃ b, (none : Option DateTime) = some b) :=
  seenTogether_c10 ["[whenever] ERROR: no clock"] ["ERROR"]
    [⟨"no clock", 1, none, none⟩]
    { total_lines := 1, matched_entries := 1, unique_messages := 1,
      range_start := none, range_end := none, levels_included := ["ERROR"] }
    (by decide) ⟨"no clock", 1, none, none⟩ (by decide)

/-! ## Claim C1: counts group by exact message text -/

/-- Association-list lookup in a counts list. -/
def lookC : List (String × Nat) → String → Option Nat
  | [], _ => none
  | (k, c) :: t, m => if k = m then some c else lookC t m

theorem lookC_bump_self (acc : List (String × Nat)) (m : String) :
    lookC (bump acc m) m = some ((lookC acc m).getD 0 + 1) := by
  induction acc with
  | nil => simp [bump, lookC]
  | cons p t ih =>
      obtain ⟨k, c⟩ := p
      by_cases h : k = m <;> simp [bump, lookC, h, ih]

theorem lookC_bump_ne (acc : List (String × Nat)) {m x : String} (h : x ≠ m) :
    lookC (bump acc m) x = lookC acc x := by
  induction acc with
  | nil => simp [bump, lookC, Ne.symm h]
  | cons p t ih =>
      obtain ⟨k, c⟩ := p
      by_cases hk : k = m
      · subst hk
        have hne : ¬ (k = x) := fun he => h he.symm
        simp [bump, lookC, hne]
      · simp [bump, lookC, hk, ih]

/-- Folding `bump` over a message list adds, for every message, the
number of its occurrences to the looked-up count. -/
theorem lookC_foldl_bump (msgs : List String) :
    ∀ (acc : List (String × Nat)) (m : String),
      (lookC (msgs.foldl bump acc) m).getD 0 =
        (lookC acc m).getD 0 + (msgs.filter (fun x => x == m)).length := by
  induction msgs with
  | nil => intro acc m; simp
  | cons x xs ih =>
      intro acc m
      rw [List.foldl_cons, ih]
      by_cases h : x = m
      · subst h; rw [lookC_bump_self]; simp; omega
      · rw [lookC_bump_ne acc (fun he => h he.symm)]
        simp [List.filter_cons, h]

/-- One `bump` either increments an existing key, leaving the key list
unchanged, or appends the fresh key at the end. -/
theorem bump_keys (acc : List (String × Nat)) (m : String) :
    (m ∈ acc.map Prod.fst ∧ (bump acc m).map Prod.fst = acc.map Prod.fst) ∨
    (m ∉ acc.map Prod.fst ∧
      (bump acc m).map Prod.fst = acc.map Prod.fst ++ [m]) := by
  induction acc with
  | nil => right; exact ⟨by simp, by simp [bump]⟩
  | cons p t ih =>
      obtain ⟨k, c⟩ := p
      by_cases h : k = m
      · left; exact ⟨by simp [h], by simp [bump, h]⟩
      · rcases ih with ⟨h1, h2⟩ | ⟨h1, h2⟩
        · left
          exact ⟨by simp [h1], by simp [bump, h, h2]⟩
        · right
          refine ⟨?_, by simp [bump, h, h2]⟩
          simp only [List.map_cons, List.mem_cons]
          rintro (he | he)
          · exact h he.symm
          · exact h1 he

theorem bump_keys_nodup (acc : List (String × Nat)) (m : String)
    (h : (acc.map Prod.fst).Nodup) : ((bump acc m).map Prod.fst).Nodup := by
  rcases bump_keys acc m with ⟨_, h2⟩ | ⟨h1, h2⟩
  · rwa [h2]
  · rw [h2]
    simp [List.nodup_append, h, h1]

theorem lookC_of_mem : ∀ (acc : List (String × Nat)),
    (acc.map Prod.fst).Nodup → ∀ p ∈ acc, lookC acc p.1 = some p.2 := by
  intro acc
  induction acc with
  | nil => intro _ p hp; simp at hp
  | cons q t ih =>
      obtain ⟨k, c⟩ := q
      intro hnd p hp
      rw [List.map_cons, List.nodup_cons] at hnd
      rcases List.mem_cons.1 hp with hp | hp
      · subst hp; simp [lookC]
      · have hkp : k ≠ p.1 := by
          intro he
          exact hnd.1 (he ▸ List.mem_map.2 ⟨p, hp, rfl⟩)
        simp [lookC, hkp, ih hnd.2 p hp]

theorem countsFold_eq (rows : List Row) :
    countsFold rows = (rows.map (fun r => r.2.2)).foldl bump [] := by
  rw [countsFold, List.foldl_map]

theorem countsFold_keys_nodup (rows : List Row) :
    ((countsFold rows).map Prod.fst).Nodup := by
  rw [countsFold_eq]
  generalize rows.map (fun r => r.2.2) = msgs
  have h : ∀ (acc : List (String × Nat)), (acc.map Prod.fst).Nodup →
      ((msgs.foldl bump acc).map Prod.fst).Nodup := by
    induction msgs with
    | nil => intro acc h; exact h
    | cons x xs ih => intro acc h; exact ih (bump acc x) (bump_keys_nodup acc x h)
  exact h [] (by simp)

/-- C1: the count recorded in the final table for a message equals the
number of allowed-level records carrying exactly that message text —
the filter inspects only the message component, so records differing
in level or carrying an unparseable (absent) timestamp are counted
all the same. -/
theorem countGroups_c1 (lines levels : List String) (t : List MessageStat)
    (ov : Overview) (h : processLines lines levels = some (t, ov))
    (s : MessageStat) (hs : s ∈ t) :
    s.count =
      ((mkRows lines levels).filter (fun r => r.2.2 == s.message)).length := by
  obtain ⟨p, hp, hmsg, hcnt, _, _⟩ := table_mem h hs
  have h1 : lookC (countsFold (mkRows lines levels)) p.1 = some p.2 :=
    lookC_of_mem _ (countsFold_keys_nodup _) p hp
  have h2 := lookC_foldl_bump ((mkRows lines levels).map (fun r => r.2.2)) [] p.1
  rw [← countsFold_eq, h1] at h2
  simp only [lookC, Option.getD_some] at h2
  have h3 : (((mkRows lines levels).map (fun r => r.2.2)).filter
      (fun x => x == p.1)).length =
      ((mkRows lines levels).filter (fun r => r.2.2 == p.1)).length := by
    rw [List.filter_map, List.length_map]
    rfl
  rw [hcnt, hmsg, h2, h3]
  simp

/-- The table entry of the C1 witness input: the same message arrives
once as ERROR with a parseable timestamp and once as WARNING with an
unparseable one — both are counted under the single key `Disk full`. -/
def statC1 : MessageStat :=
  ⟨"Disk full", 2, some ⟨2025, 8, 14, 10, 0, 0, 0⟩, some ⟨2025, 8, 14, 10, 0, 0, 0⟩⟩

/-- C1 witness: on a concrete input mixing levels and an unparseable
timestamp under one message text, the recorded count 2 equals the
number of allowed-level rows with that message. -/
theorem countGroups_c1_witness :
    statC1.count =
      ((mkRows ["[2025-08-14 10:00:00] ERROR: Disk full",
                "[oops] WARNING: Disk full", "junk"] ["ERROR", "WARNING"]).filter
        (fun r => r.2.2 == statC1.message)).length :=
  countGroups_c1
    ["[2025-08-14 10:00:00] ERROR: Disk full", "[oops] WARNING: Disk full", "junk"]
    ["ERROR", "WARNING"]
    [statC1]
    { total_lines := 3, matched_entries := 2, unique_messages := 1,
      range_start := some ⟨2025, 8, 14, 10, 0, 0, 0⟩,
      range_end := some ⟨2025, 8, 14, 10, 0, 0, 0⟩,
      levels_included := ["ERROR", "WARNING"] }
    (by decide) statC1 (by decide)

/-! ## Claim C2: the sort order of the output table -/

theorem lsAfter_irrefl (x : Option DateTime) : ¬ lsAfter x x := by
  cases x with
  | none => simp [lsAfter]
  | some a => exact DateTime.lt_irrefl a

theorem lsAfter_asymm {x y : Option DateTime} (h : lsAfter x y) :
    ¬ lsAfter y x := by
  cases x <;> cases y <;> simp [lsAfter] at *
  exact DateTime.lt_asymm h

theorem lsAfter_trans {x y z : Option DateTime} (h1 : lsAfter x y)
    (h2 : lsAfter y z) : lsAfter x z := by
  cases x <;> cases y <;> cases z <;> simp [lsAfter] at *
  exact DateTime.lt_trans h2 h1

theorem lsAfter_total (x y : Option DateTime) :
    lsAfter x y ∨ x = y ∨ lsAfter y x := by
  cases x with
  | none =>
      cases y with
      | none => exact Or.inr (Or.inl rfl)
      | some b => exact Or.inr (Or.inr trivial)
  | some a =>
      cases y with
      | none => exact Or.inl trivial
      | some b =>
          rcases DateTime.lt_total a b with h | h | h
          · exact Or.inr (Or.inr h)
          · exact Or.inr (Or.inl (by rw [h]))
          · exact Or.inl h

theorem rowBefore_asymm {a b : Nat × MessageStat} (h : rowBefore a b) :
    ¬ rowBefore b a := by
  intro h2
  unfold rowBefore at h h2
  rcases h with h | ⟨hc, h⟩
  · rcases h2 with h2 | ⟨hc2, h2⟩ <;> omega
  · rcases h2 with h2 | ⟨hc2, h2⟩
    · omega
    · rcases h with h | ⟨hl, hi⟩ <;> rcases h2 with h2 | ⟨hl2, hi2⟩
      · exact lsAfter_asymm h h2
      · rw [hl2] at h; exact lsAfter_irrefl _ h
      · rw [hl] at h2; exact lsAfter_irrefl _ h2
      · omega

theorem sortRel_total (a b : Nat × MessageStat) : sortRel a b ∨ sortRel b a := by
  by_cases h : rowBefore b a
  · exact Or.inr (rowBefore_asymm h)
  · exact Or.inl h

theorem sortRel_trans {a b c : Nat × MessageStat} (hab : sortRel a b)
    (hbc : sortRel b c) : sortRel a c := by
  unfold sortRel at *
  intro hca
  have h1 : ¬ a.2.count < b.2.count := fun hh => hab (Or.inl hh)
  have h2 : ¬ b.2.count < c.2.count := fun hh => hbc (Or.inl hh)
  unfold rowBefore at hca
  rcases hca with hca | ⟨hc, hca⟩
  · omega
  · have hA : ¬ lsAfter b.2.last_seen a.2.last_seen ∧
        (b.2.last_seen = a.2.last_seen → ¬ b.1 < a.1) := by
      constructor
      · intro hh; exact hab (Or.inr ⟨by omega, Or.inl hh⟩)
      · intro he hh; exact hab (Or.inr ⟨by omega, Or.inr ⟨he, hh⟩⟩)
    have hB : ¬ lsAfter c.2.last_seen b.2.last_seen ∧
        (c.2.last_seen = b.2.last_seen → ¬ c.1 < b.1) := by
      constructor
      · intro hh; exact hbc (Or.inr ⟨by omega, Or.inl hh⟩)
      · intro he hh; exact hbc (Or.inr ⟨by omega, Or.inr ⟨he, hh⟩⟩)
    rcases hca with hca | ⟨hleq, hidx⟩
    · rcases lsAfter_total a.2.last_seen b.2.last_seen with h3 | h3 | h3
      · exact hB.1 (lsAfter_trans hca h3)
      · rw [h3] at hca; exact hB.1 hca
      · exact hA.1 h3
    · rcases lsAfter_total a.2.last_seen b.2.last_seen with h3 | h3 | h3
      · rw [← hleq] at h3; exact hB.1 h3
      · have h4 : c.2.last_seen = b.2.last_seen := by rw [hleq, h3]
        have h5 := hB.2 h4
        have h6 := hA.2 h3.symm
        omega
      · exact hA.1 h3

theorem rowBefore_of_not_of_ne {a b : Nat × MessageStat}
    (h : ¬ rowBefore b a) (hne : a.1 ≠ b.1) : rowBefore a b := by
  unfold rowBefore at *
  rcases Nat.lt_trichotomy a.2.count b.2.count with hc | hc | hc
  · exact absurd (Or.inl hc) h
  · refine Or.inr ⟨hc.symm, ?_⟩
    rcases lsAfter_total a.2.last_seen b.2.last_seen with h3 | h3 | h3
    · exact Or.inl h3
    · refine Or.inr ⟨h3, ?_⟩
      have h4 : ¬ b.1 < a.1 := fun hh => h (Or.inr ⟨hc, Or.inr ⟨h3.symm, hh⟩⟩)
      omega
    · exact absurd (Or.inr ⟨hc, Or.inl h3⟩) h
  · exact Or.inl hc

instance : IsTotal (Nat × MessageStat) sortRel := ⟨sortRel_total⟩

instance : IsTrans (Nat × MessageStat) sortRel := ⟨fun _ _ _ => sortRel_trans⟩

/-- C2: the output table is the projection of an index-annotated list
that is a permutation of the enumerated data list (so the indices are
encounter positions) and is pairwise ordered by: count descending;
then last-seen descending with every absent last-seen after all
defined ones; then — when both keys tie — ascending encounter index,
i.e. the stable sort preserves encounter order. -/
theorem sortOrder_c2 (lines levels : List String) (t : List MessageStat)
    (ov : Overview) (h : processLines lines levels = some (t, ov)) :
    ∃ s : List (Nat × MessageStat),
      t = s.map Prod.snd ∧
      s.Perm (dataList (mkRows lines levels)).enum ∧
      s.Pairwise (fun a b => b.2.count < a.2.count ∨ (b.2.count = a.2.count ∧
        (lsAfter a.2.last_seen b.2.last_seen ∨
          (a.2.last_seen = b.2.last_seen ∧ a.1 < b.1)))) := by
  have ht : t = sortStats (dataList (mkRows lines levels)) := by
    unfold processLines at h
    by_cases hr : mkRows lines levels = []
    · simp [hr] at h
    · simp only [hr, if_false, if_neg, Option.some_inj] at h
      exact (congrArg Prod.fst h).symm
  refine ⟨List.insertionSort sortRel (dataList (mkRows lines levels)).enum,
    ht, List.perm_insertionSort _ _, ?_⟩
  have hsorted : (List.insertionSort sortRel
      (dataList (mkRows lines levels)).enum).Pairwise sortRel :=
    List.sorted_insertionSort sortRel _
  have hnd : ((List.insertionSort sortRel
      (dataList (mkRows lines levels)).enum).map Prod.fst).Nodup := by
    have hperm := (List.perm_insertionSort sortRel
      (dataList (mkRows lines levels)).enum).map Prod.fst
    rw [List.enum_map_fst] at hperm
    exact hperm.nodup_iff.2 (List.nodup_range _)
  have hne : (List.insertionSort sortRel
      (dataList (mkRows lines levels)).enum).Pairwise
      (fun a b : Nat × MessageStat => a.1 ≠ b.1) :=
    (List.pairwise_map.1 hnd)
  exact (hsorted.and hne).imp
    (fun hab => rowBefore_of_not_of_ne hab.1 hab.2)

/-- Scenario-5 style witness table entries: two messages with equal
counts, `B` with the later last-seen. -/
def statB5 : MessageStat :=
  ⟨"B", 1, some ⟨2025, 1, 2, 0, 0, 0, 0⟩, some ⟨2025, 1, 2, 0, 0, 0, 0⟩⟩

/-- The scenario-5 entry sorted after `statB5`. -/
def statA5 : MessageStat :=
  ⟨"A", 1, some ⟨2025, 1, 1, 0, 0, 0, 0⟩, some ⟨2025, 1, 1, 0, 0, 0, 0⟩⟩

/-- C2 witness: on the scenario-5 input (equal counts, `B` seen
later), the produced table `[B, A]` satisfies the sort-order
characterization. -/
theorem sortOrder_c2_witness :
    ∃ s : List (Nat × MessageStat),
      [statB5, statA5] = s.map Prod.snd ∧
      s.Perm (dataList (mkRows ["[2025-01-01 00:00:00] ERROR: A",
        "[2025-01-02 00:00:00] ERROR: B"] ["ERROR"])).enum ∧
      s.Pairwise (fun a b => b.2.count < a.2.count ∨ (b.2.count = a.2.count ∧
        (lsAfter a.2.last_seen b.2.last_seen ∨
          (a.2.last_seen = b.2.last_seen ∧ a.1 < b.1)))) :=
  sortOrder_c2
    ["[2025-01-01 00:00:00] ERROR: A", "[2025-01-02 00:00:00] ERROR: B"]
    ["ERROR"] [statB5, statA5]
    { total_lines := 2, matched_entries := 2, unique_messages := 2,
      range_start := some ⟨2025, 1, 1, 0, 0, 0, 0⟩,
      range_end := some ⟨2025, 1, 2, 0, 0, 0, 0⟩,
      levels_included := ["ERROR"] }
    (by decide)

/-! ## Claim C3: round-tripping the four templates

Component lemmas describing how `runFmt` consumes zero-padded
renderings, followed by the two core chains (space-separated and
T-separated) and the assembly over the format list. -/

theorem isDig_dch {k : Nat} (h : k ≤ 9) : isDig (dch k) = true := by
  interval_cases k <;> decide

theorem dval_dch {k : Nat} (h : k ≤ 9) : dval (dch k) = k := by
  interval_cases k <;> decide

theorem isSpc_dch {k : Nat} (h : k ≤ 9) : isSpc (dch k) = false := by
  interval_cases k <;> decide

theorem dch_ne_dash {k : Nat} (h : k ≤ 9) : dch k ≠ '-' := by
  interval_cases k <;> decide

theorem dch_ne_colon {k : Nat} (h : k ≤ 9) : dch k ≠ ':' := by
  interval_cases k <;> decide

theorem pad2_cons (n : Nat) (l : List Char) :
    pad2 n ++ l = dch (n / 10) :: dch (n % 10) :: l := rfl

theorem pad4_cons (n : Nat) (l : List Char) :
    pad4 n ++ l = dch (n / 1000) :: dch (n / 100 % 10) :: dch (n / 10 % 10) ::
      dch (n % 10) :: l := rfl

theorem runFmt_y4_pad {n : Nat} (h : n < 10000) (rest : List FItem) (l : List Char) :
    runFmt (.y4 :: rest) (pad4 n ++ l) =
      (runFmt rest l).map (fun p => (n :: p.1, p.2)) := by
  rw [pad4_cons]
  have h1 : n / 1000 ≤ 9 := by omega
  have h2 : n / 100 % 10 ≤ 9 := by omega
  have h3 : n / 10 % 10 ≤ 9 := by omega
  have h4 : n % 10 ≤ 9 := by omega
  have hval : dval (dch (n / 1000)) * 1000 + dval (dch (n / 100 % 10)) * 100 +
      dval (dch (n / 10 % 10)) * 10 + dval (dch (n % 10)) = n := by
    rw [dval_dch h1, dval_dch h2, dval_dch h3, dval_dch h4]; omega
  simp [runFmt, isDig_dch, h1, h2, h3, h4, hval]

theorem runFmt_two_some {n : Nat} (h : n < 100) {vT vO : Nat → Bool}
    (hv : vT n = true) {rest : List FItem} {l : List Char} {vs : List Nat}
    {rem : List Char} (hrest : runFmt rest l = some (vs, rem)) :
    runFmt (.two vT vO :: rest) (pad2 n ++ l) = some (n :: vs, rem) := by
  rw [pad2_cons]
  have h1 : n / 10 ≤ 9 := by omega
  have h2 : n % 10 ≤ 9 := by omega
  have hval : dval (dch (n / 10)) * 10 + dval (dch (n % 10)) = n := by
    rw [dval_dch h1, dval_dch h2]; omega
  simp [runFmt, isDig_dch, h1, h2, hval, hv, hrest]

theorem runFmt_two_none {n : Nat} (_h : n < 100) {vT vO : Nat → Bool}
    {rest : List FItem} {l : List Char}
    (h1 : runFmt rest l = none) (h2 : runFmt rest (dch (n % 10) :: l) = none) :
    runFmt (.two vT vO :: rest) (pad2 n ++ l) = none := by
  rw [pad2_cons]
  simp only [runFmt, h1, h2, Option.map_none]
  split <;> simp_all

theorem runFmt_lit_eq (c : Char) (rest : List FItem) (l : List Char) :
    runFmt (.lit c :: rest) (c :: l) = runFmt rest l := by
  simp [runFmt]

theorem runFmt_lit_ne {x c : Char} (h : x ≠ c) (rest : List FItem) (l : List Char) :
    runFmt (.lit c :: rest) (x :: l) = none := by
  simp [runFmt, h]

theorem runFmt_litT_eq (rest : List FItem) (l : List Char) :
    runFmt (.litT :: rest) ('T' :: l) = runFmt rest l := by
  simp [runFmt]

theorem runFmt_ws_dig {k : Nat} (h : k ≤ 9) (rest : List FItem) (l : List Char) :
    runFmt (.ws :: rest) (' ' :: dch k :: l) = runFmt rest (dch k :: l) := by
  have hs : isSpc ' ' = true := by decide
  have hd : isSpc (dch k) = false := isSpc_dch h
  simp [runFmt, hs, List.dropWhile, hd]

theorem runFmt_ws_none {x : Char} (h : isSpc x = false) (rest : List FItem)
    (l : List Char) : runFmt (.ws :: rest) (x :: l) = none := by
  simp [runFmt, h]

theorem fracVal_pad6 {f : Nat} (h : f < 1000000) : fracVal (pad6 f) = f := by
  have h1 : f / 100000 ≤ 9 := by omega
  have h2 : f / 10000 % 10 ≤ 9 := by omega
  have h3 : f / 1000 % 10 ≤ 9 := by omega
  have h4 : f / 100 % 10 ≤ 9 := by omega
  have h5 : f / 10 % 10 ≤ 9 := by omega
  have h6 : f % 10 ≤ 9 := by omega
  simp only [fracVal, pad6, List.foldl_cons, List.foldl_nil, List.length_cons,
    List.length_nil, dval_dch h1, dval_dch h2, dval_dch h3, dval_dch h4,
    dval_dch h5, dval_dch h6]
  norm_num
  omega

theorem runFmt_frac_pad6 {f : Nat} (h : f < 1000000) :
    runFmt [.frac] (pad6 f) = some ([f], []) := by
  have hds : (pad6 f).takeWhile isDig = pad6 f := by
    simp [pad6, List.takeWhile, isDig_dch, Nat.div_le_iff_le_mul_add_pred,
      (by omega : f / 100000 ≤ 9), (by omega : f / 10000 % 10 ≤ 9),
      (by omega : f / 1000 % 10 ≤ 9), (by omega : f / 100 % 10 ≤ 9),
      (by omega : f / 10 % 10 ≤ 9), (by omega : f % 10 ≤ 9)]
  simp only [runFmt, hds]
  have hlen : (pad6 f).length = 6 := rfl
  have hne : (pad6 f).isEmpty = false := rfl
  rw [hne]
  simp only [Bool.false_eq_true, if_false, hlen]
  have htake : (pad6 f).take 6 = pad6 f := by simp [pad6]
  have hdrop : (pad6 f).drop (min 6 6) = [] := by simp [pad6]
  rw [htake, hdrop, fracVal_pad6 h]
  rfl

theorem daysInMonth_le_31 (y m : Nat) : daysInMonth y m ≤ 31 := by
  unfold daysInMonth; split_ifs <;> omega

/-- The `datetime` constructor succeeds on the fields of a valid
DateTime and rebuilds it. -/
theorem mkDT_of_valid (d : DateTime) (hd : d.valid) :
    mkDT d.year d.month d.day d.hour d.minute d.second d.microsecond = some d := by
  unfold mkDT
  rw [if_pos (by unfold DateTime.valid at hd; exact hd)]

/-- The space-separated core `YYYY-MM-DD HH:MM:SS` of the compiled
first format consumes exactly the zero-padded rendering of a valid
DateTime, capturing its six field values, whatever items and
characters follow. -/
theorem runFmt_core_ws (restI : List FItem) (restC : List Char) (vs : List Nat)
    (rem : List Char) (d : DateTime) (hd : d.valid)
    (hrest : runFmt restI restC = some (vs, rem)) :
    runFmt (fmt1Items ++ restI) (fmtCore ' ' d ++ restC) =
      some (d.year :: d.month :: d.day :: d.hour :: d.minute :: d.second :: vs,
        rem) := by
  obtain ⟨hy1, hy2, hm1, hm2, hdd1, hdd2, hh, hmi, hs, hf⟩ := hd
  have hd31 : d.day ≤ 31 := le_trans hdd2 (daysInMonth_le_31 _ _)
  have h10 : runFmt (FItem.two vTwoS vOne09 :: restI)
      (pad2 d.second ++ restC) = some (d.second :: vs, rem) :=
    runFmt_two_some (by omega) (by simp [vTwoS]; omega) hrest
  have h9 : runFmt (FItem.lit ':' :: FItem.two vTwoS vOne09 :: restI)
      (':' :: (pad2 d.second ++ restC)) = some (d.second :: vs, rem) := by
    rw [runFmt_lit_eq]; exact h10
  have h8 : runFmt (FItem.two vTwoMin vOne09 :: FItem.lit ':' ::
        FItem.two vTwoS vOne09 :: restI)
      (pad2 d.minute ++ ':' :: (pad2 d.second ++ restC)) =
      some (d.minute :: d.second :: vs, rem) :=
    runFmt_two_some (by omega) (by simp [vTwoMin]; omega) h9
  have h7 : runFmt (FItem.lit ':' :: FItem.two vTwoMin vOne09 ::
        FItem.lit ':' :: FItem.two vTwoS vOne09 :: restI)
      (':' :: (pad2 d.minute ++ ':' :: (pad2 d.second ++ restC))) =
      some (d.minute :: d.second :: vs, rem) := by
    rw [runFmt_lit_eq]; exact h8
  have h6 : runFmt (FItem.two vTwoH vOne09 :: FItem.lit ':' ::
        FItem.two vTwoMin vOne09 :: FItem.lit ':' ::
        FItem.two vTwoS vOne09 :: restI)
      (pad2 d.hour ++ ':' :: (pad2 d.minute ++ ':' :: (pad2 d.second ++ restC))) =
      some (d.hour :: d.minute :: d.second :: vs, rem) :=
    runFmt_two_some (by omega) (by simp [vTwoH]; omega) h7
  have h5 : runFmt (FItem.ws :: FItem.two vTwoH vOne09 :: FItem.lit ':' ::
        FItem.two vTwoMin vOne09 :: FItem.lit ':' ::
        FItem.two vTwoS vOne09 :: restI)
      (' ' :: (pad2 d.hour ++ ':' :: (pad2 d.minute ++ ':' ::
        (pad2 d.second ++ restC)))) =
      some (d.hour :: d.minute :: d.second :: vs, rem) := by
    rw [pad2_cons] at h6 ⊢
    rw [runFmt_ws_dig (by omega : d.hour / 10 ≤ 9)]
    exact h6
  have h4 : runFmt (FItem.two vTwoD vOne19 :: FItem.ws ::
        FItem.two vTwoH vOne09 :: FItem.lit ':' ::
        FItem.two vTwoMin vOne09 :: FItem.lit ':' ::
        FItem.two vTwoS vOne09 :: restI)
      (pad2 d.day ++ ' ' :: (pad2 d.hour ++ ':' :: (pad2 d.minute ++ ':' ::
        (pad2 d.second ++ restC)))) =
      some (d.day :: d.hour :: d.minute :: d.second :: vs, rem) :=
    runFmt_two_some (by omega) (by simp [vTwoD]; omega) h5
  have h3 : runFmt (FItem.lit '-' :: FItem.two vTwoD vOne19 :: FItem.ws ::
        FItem.two vTwoH vOne09 :: FItem.lit ':' ::
        FItem.two vTwoMin vOne09 :: FItem.lit ':' ::
        FItem.two vTwoS vOne09 :: restI)
      ('-' :: (pad2 d.day ++ ' ' :: (pad2 d.hour ++ ':' :: (pad2 d.minute ++
        ':' :: (pad2 d.second ++ restC))))) =
      some (d.day :: d.hour :: d.minute :: d.second :: vs, rem) := by
    rw [runFmt_lit_eq]; exact h4
  have h2 : runFmt (FItem.two vTwoM vOne19 :: FItem.lit '-' ::
        FItem.two vTwoD vOne19 :: FItem.ws :: FItem.two vTwoH vOne09 ::
        FItem.lit ':' :: FItem.two vTwoMin vOne09 :: FItem.lit ':' ::
        FItem.two vTwoS vOne09 :: restI)
      (pad2 d.month ++ '-' :: (pad2 d.day ++ ' ' :: (pad2 d.hour ++ ':' ::
        (pad2 d.minute ++ ':' :: (pad2 d.second ++ restC))))) =
      some (d.month :: d.day :: d.hour :: d.minute :: d.second :: vs, rem) :=
    runFmt_two_some (by omega) (by simp [vTwoM]; omega) h3
  have h1 : runFmt (FItem.lit '-' :: FItem.two vTwoM vOne19 ::
        FItem.lit '-' :: FItem.two vTwoD vOne19 :: FItem.ws ::
        FItem.two vTwoH vOne09 :: FItem.lit ':' ::
        FItem.two vTwoMin vOne09 :: FItem.lit ':' ::
        FItem.two vTwoS vOne09 :: restI)
      ('-' :: (pad2 d.month ++ '-' :: (pad2 d.day ++ ' ' :: (pad2 d.hour ++
        ':' :: (pad2 d.minute ++ ':' :: (pad2 d.second ++ restC)))))) =
      some (d.month :: d.day :: d.hour :: d.minute :: d.second :: vs, rem) := by
    rw [runFmt_lit_eq]; exact h2
  show runFmt (fmt1Items ++ restI) (fmtCore ' ' d ++ restC) = _
  simp only [fmt1Items, fmtCore, List.cons_append, List.nil_append,
    List.append_assoc]
  rw [runFmt_y4_pad (by omega), h1]
  rfl

/-- The T-separated core `YYYY-MM-DDTHH:MM:SS` of the compiled third
format, analogously. -/
theorem runFmt_core_T (restI : List FItem) (restC : List Char) (vs : List Nat)
    (rem : List Char) (d : DateTime) (hd : d.valid)
    (hrest : runFmt restI restC = some (vs, rem)) :
    runFmt (fmt3Items ++ restI) (fmtCore 'T' d ++ restC) =
      some (d.year :: d.month :: d.day :: d.hour :: d.minute :: d.second :: vs,
        rem) := by
  obtain ⟨hy1, hy2, hm1, hm2, hdd1, hdd2, hh, hmi, hs, hf⟩ := hd
  have hd31 : d.day ≤ 31 := le_trans hdd2 (daysInMonth_le_31 _ _)
  have h10 : runFmt (FItem.two vTwoS vOne09 :: restI)
      (pad2 d.second ++ restC) = some (d.second :: vs, rem) :=
    runFmt_two_some (by omega) (by simp [vTwoS]; omega) hrest
  have h9 : runFmt (FItem.lit ':' :: FItem.two vTwoS vOne09 :: restI)
      (':' :: (pad2 d.second ++ restC)) = some (d.second :: vs, rem) := by
    rw [runFmt_lit_eq]; exact h10
  have h8 : runFmt (FItem.two vTwoMin vOne09 :: FItem.lit ':' ::
        FItem.two vTwoS vOne09 :: restI)
      (pad2 d.minute ++ ':' :: (pad2 d.second ++ restC)) =
      some (d.minute :: d.second :: vs, rem) :=
    runFmt_two_some (by omega) (by simp [vTwoMin]; omega) h9
  have h7 : runFmt (FItem.lit ':' :: FItem.two vTwoMin vOne09 ::
        FItem.lit ':' :: FItem.two vTwoS vOne09 :: restI)
      (':' :: (pad2 d.minute ++ ':' :: (pad2 d.second ++ restC))) =
      some (d.minute :: d.second :: vs, rem) := by
    rw [runFmt_lit_eq]; exact h8
  have h6 : runFmt (FItem.two vTwoH vOne09 :: FItem.lit ':' ::
        FItem.two vTwoMin vOne09 :: FItem.lit ':' ::
        FItem.two vTwoS vOne09 :: restI)
      (pad2 d.hour ++ ':' :: (pad2 d.minute ++ ':' :: (pad2 d.second ++ restC))) =
      some (d.hour :: d.minute :: d.second :: vs, rem) :=
    runFmt_two_some (by omega) (by simp [vTwoH]; omega) h7
  have h5 : runFmt (FItem.litT :: FItem.two vTwoH vOne09 :: FItem.lit ':' ::
        FItem.two vTwoMin vOne09 :: FItem.lit ':' ::
        FItem.two vTwoS vOne09 :: restI)
      ('T' :: (pad2 d.hour ++ ':' :: (pad2 d.minute ++ ':' ::
        (pad2 d.second ++ restC)))) =
      some (d.hour :: d.minute :: d.second :: vs, rem) := by
    rw [runFmt_litT_eq]; exact h6
  have h4 : runFmt (FItem.two vTwoD vOne19 :: FItem.litT ::
        FItem.two vTwoH vOne09 :: FItem.lit ':' ::
        FItem.two vTwoMin vOne09 :: FItem.lit ':' ::
        FItem.two vTwoS vOne09 :: restI)
      (pad2 d.day ++ 'T' :: (pad2 d.hour ++ ':' :: (pad2 d.minute ++ ':' ::
        (pad2 d.second ++ restC)))) =
      some (d.day :: d.hour :: d.minute :: d.second :: vs, rem) :=
    runFmt_two_some (by omega) (by simp [vTwoD]; omega) h5
  have h3 : runFmt (FItem.lit '-' :: FItem.two vTwoD vOne19 :: FItem.litT ::
        FItem.two vTwoH vOne09 :: FItem.lit ':' ::
        FItem.two vTwoMin vOne09 :: FItem.lit ':' ::
        FItem.two vTwoS vOne09 :: restI)
      ('-' :: (pad2 d.day ++ 'T' :: (pad2 d.hour ++ ':' :: (pad2 d.minute ++
        ':' :: (pad2 d.second ++ restC))))) =
      some (d.day :: d.hour :: d.minute :: d.second :: vs, rem) := by
    rw [runFmt_lit_eq]; exact h4
  have h2 : runFmt (FItem.two vTwoM vOne19 :: FItem.lit '-' ::
        FItem.two vTwoD vOne19 :: FItem.litT :: FItem.two vTwoH vOne09 ::
        FItem.lit ':' :: FItem.two vTwoMin vOne09 :: FItem.lit ':' ::
        FItem.two vTwoS vOne09 :: restI)
      (pad2 d.month ++ '-' :: (pad2 d.day ++ 'T' :: (pad2 d.hour ++ ':' ::
        (pad2 d.minute ++ ':' :: (pad2 d.second ++ restC))))) =
      some (d.month :: d.day :: d.hour :: d.minute :: d.second :: vs, rem) :=
    runFmt_two_some (by omega) (by simp [vTwoM]; omega) h3
  have h1 : runFmt (FItem.lit '-' :: FItem.two vTwoM vOne19 ::
        FItem.lit '-' :: FItem.two vTwoD vOne19 :: FItem.litT ::
        FItem.two vTwoH vOne09 :: FItem.lit ':' ::
        FItem.two vTwoMin vOne09 :: FItem.lit ':' ::
        FItem.two vTwoS vOne09 :: restI)
      ('-' :: (pad2 d.month ++ '-' :: (pad2 d.day ++ 'T' :: (pad2 d.hour ++
        ':' :: (pad2 d.minute ++ ':' :: (pad2 d.second ++ restC)))))) =
      some (d.month :: d.day :: d.hour :: d.minute :: d.second :: vs, rem) := by
    rw [runFmt_lit_eq]; exact h2
  show runFmt (fmt3Items ++ restI) (fmtCore 'T' d ++ restC) = _
  simp only [fmt3Items, fmtCore, List.cons_append, List.nil_append,
    List.append_assoc]
  rw [runFmt_y4_pad (by omega), h1]
  rfl

/-- The space-separated format (alone or with any trailing items, so
also the second format) rejects any T-separated rendering: the
whitespace item faces the literal `T`, and every one-digit fallback
of the day and month alternations faces a digit or `T` where the
format wants whitespace or a dash. -/
theorem runFmt_fmt1_on_T (restI : List FItem) (l : List Char) (d : DateTime)
    (hd : d.valid) :
    runFmt (fmt1Items ++ restI) (fmtCore 'T' d ++ l) = none := by
  obtain ⟨hy1, hy2, hm1, hm2, hdd1, hdd2, hh, hmi, hs, hf⟩ := hd
  have hd31 : d.day ≤ 31 := le_trans hdd2 (daysInMonth_le_31 _ _)
  set X : List Char :=
    pad2 d.hour ++ ':' :: (pad2 d.minute ++ ':' :: (pad2 d.second ++ l)) with hX
  have h5 : runFmt (FItem.ws :: FItem.two vTwoH vOne09 :: FItem.lit ':' ::
        FItem.two vTwoMin vOne09 :: FItem.lit ':' ::
        FItem.two vTwoS vOne09 :: restI) ('T' :: X) = none :=
    runFmt_ws_none (by decide) _ _
  have h5b : runFmt (FItem.ws :: FItem.two vTwoH vOne09 :: FItem.lit ':' ::
        FItem.two vTwoMin vOne09 :: FItem.lit ':' ::
        FItem.two vTwoS vOne09 :: restI)
      (dch (d.day % 10) :: 'T' :: X) = none :=
    runFmt_ws_none (isSpc_dch (by omega)) _ _
  have h4 : runFmt (FItem.two vTwoD vOne19 :: FItem.ws ::
        FItem.two vTwoH vOne09 :: FItem.lit ':' ::
        FItem.two vTwoMin vOne09 :: FItem.lit ':' ::
        FItem.two vTwoS vOne09 :: restI) (pad2 d.day ++ 'T' :: X) = none :=
    runFmt_two_none (by omega) h5 h5b
  have h3 : runFmt (FItem.lit '-' :: FItem.two vTwoD vOne19 :: FItem.ws ::
        FItem.two vTwoH vOne09 :: FItem.lit ':' ::
        FItem.two vTwoMin vOne09 :: FItem.lit ':' ::
        FItem.two vTwoS vOne09 :: restI)
      ('-' :: (pad2 d.day ++ 'T' :: X)) = none := by
    rw [runFmt_lit_eq]; exact h4
  have h3b : runFmt (FItem.lit '-' :: FItem.two vTwoD vOne19 :: FItem.ws ::
        FItem.two vTwoH vOne09 :: FItem.lit ':' ::
        FItem.two vTwoMin vOne09 :: FItem.lit ':' ::
        FItem.two vTwoS vOne09 :: restI)
      (dch (d.month % 10) :: ('-' :: (pad2 d.day ++ 'T' :: X))) = none :=
    runFmt_lit_ne (dch_ne_dash (by omega)) _ _
  have h2 : runFmt (FItem.two vTwoM vOne19 :: FItem.lit '-' ::
        FItem.two vTwoD vOne19 :: FItem.ws :: FItem.two vTwoH vOne09 ::
        FItem.lit ':' :: FItem.two vTwoMin vOne09 :: FItem.lit ':' ::
        FItem.two vTwoS vOne09 :: restI)
      (pad2 d.month ++ '-' :: (pad2 d.day ++ 'T' :: X)) = none :=
    runFmt_two_none (by omega) h3 h3b
  have h1 : runFmt (FItem.lit '-' :: FItem.two vTwoM vOne19 ::
        FItem.lit '-' :: FItem.two vTwoD vOne19 :: FItem.ws ::
        FItem.two vTwoH vOne09 :: FItem.lit ':' ::
        FItem.two vTwoMin vOne09 :: FItem.lit ':' ::
        FItem.two vTwoS vOne09 :: restI)
      ('-' :: (pad2 d.month ++ '-' :: (pad2 d.day ++ 'T' :: X))) = none := by
    rw [runFmt_lit_eq]; exact h2
  show runFmt (fmt1Items ++ restI) (fmtCore 'T' d ++ l) = none
  simp only [fmt1Items, fmtCore, List.cons_append, List.nil_append,
    List.append_assoc]
  rw [runFmt_y4_pad (by omega)]
  rw [hX] at h1
  rw [h1]
  rfl

theorem toList_mk (l : List Char) : (String.mk l).toList = l := rfl

theorem strptime1_space (d : DateTime) (hd : d.valid) :
    strptimeWith fmt1Items (fmtCore ' ' d) =
      mkDT d.year d.month d.day d.hour d.minute d.second 0 := by
  have h := runFmt_core_ws [] [] [] [] d hd rfl
  rw [List.append_nil, List.append_nil] at h
  unfold strptimeWith
  rw [h]
  rfl

theorem strptime1_space_frac_none (d : DateTime) (hd : d.valid) :
    strptimeWith fmt1Items (fmtCore ' ' d ++ ',' :: pad6 d.microsecond) = none := by
  have h := runFmt_core_ws [] (',' :: pad6 d.microsecond) []
    (',' :: pad6 d.microsecond) d hd rfl
  rw [List.append_nil] at h
  unfold strptimeWith
  rw [h]

theorem strptime2_space (d : DateTime) (hd : d.valid) :
    strptimeWith fmt2Items (fmtCore ' ' d ++ ',' :: pad6 d.microsecond) =
      mkDT d.year d.month d.day d.hour d.minute d.second d.microsecond := by
  have hf : d.microsecond < 1000000 := by
    have := hd.2.2.2.2.2.2.2.2.2
    omega
  have hrest : runFmt [FItem.lit ',', FItem.frac] (',' :: pad6 d.microsecond) =
      some ([d.microsecond], []) := by
    rw [show ([FItem.lit ',', FItem.frac] : List FItem) =
      FItem.lit ',' :: [FItem.frac] from rfl, runFmt_lit_eq]
    exact runFmt_frac_pad6 hf
  have h := runFmt_core_ws [FItem.lit ',', FItem.frac]
    (',' :: pad6 d.microsecond) [d.microsecond] [] d hd hrest
  unfold strptimeWith
  rw [show fmt2Items = fmt1Items ++ [FItem.lit ',', FItem.frac] from rfl, h]
  rfl

theorem strptime3_T (d : DateTime) (hd : d.valid) :
    strptimeWith fmt3Items (fmtCore 'T' d) =
      mkDT d.year d.month d.day d.hour d.minute d.second 0 := by
  have h := runFmt_core_T [] [] [] [] d hd rfl
  rw [List.append_nil, List.append_nil] at h
  unfold strptimeWith
  rw [h]
  rfl

theorem strptime3_T_frac_none (d : DateTime) (hd : d.valid) :
    strptimeWith fmt3Items (fmtCore 'T' d ++ '.' :: pad6 d.microsecond) = none := by
  have h := runFmt_core_T [] ('.' :: pad6 d.microsecond) []
    ('.' :: pad6 d.microsecond) d hd rfl
  rw [List.append_nil] at h
  unfold strptimeWith
  rw [h]

theorem strptime4_T (d : DateTime) (hd : d.valid) :
    strptimeWith fmt4Items (fmtCore 'T' d ++ '.' :: pad6 d.microsecond) =
      mkDT d.year d.month d.day d.hour d.minute d.second d.microsecond := by
  have hf : d.microsecond < 1000000 := by
    have := hd.2.2.2.2.2.2.2.2.2
    omega
  have hrest : runFmt [FItem.lit '.', FItem.frac] ('.' :: pad6 d.microsecond) =
      some ([d.microsecond], []) := by
    rw [show ([FItem.lit '.', FItem.frac] : List FItem) =
      FItem.lit '.' :: [FItem.frac] from rfl, runFmt_lit_eq]
    exact runFmt_frac_pad6 hf
  have h := runFmt_core_T [FItem.lit '.', FItem.frac]
    ('.' :: pad6 d.microsecond) [d.microsecond] [] d hd hrest
  unfold strptimeWith
  rw [show fmt4Items = fmt3Items ++ [FItem.lit '.', FItem.frac] from rfl, h]
  rfl

theorem strptime1_on_T_none (d : DateTime) (hd : d.valid) (l : List Char) :
    strptimeWith fmt1Items (fmtCore 'T' d ++ l) = none := by
  have h := runFmt_fmt1_on_T [] l d hd
  rw [List.append_nil] at h
  unfold strptimeWith
  rw [h]

theorem strptime2_on_T_none (d : DateTime) (hd : d.valid) (l : List Char) :
    strptimeWith fmt2Items (fmtCore 'T' d ++ l) = none := by
  have h := runFmt_fmt1_on_T [FItem.lit ',', FItem.frac] l d hd
  unfold strptimeWith
  rw [show fmt2Items = fmt1Items ++ [FItem.lit ',', FItem.frac] from rfl, h]

/-- The `datetime` constructor also succeeds on the first six fields
of a valid DateTime with the microseconds replaced by 0 (as happens
when a fraction-free format parses its rendering). -/
theorem mkDT_zero_of_valid (d : DateTime) (hd : d.valid) :
    mkDT d.year d.month d.day d.hour d.minute d.second 0 =
      some ⟨d.year, d.month, d.day, d.hour, d.minute, d.second, 0⟩ := by
  unfold DateTime.valid at hd
  unfold mkDT
  rw [if_pos]
  omega

/-- Parsing the fraction-free space-separated rendering of any valid
DateTime yields the DateTime with its microseconds zeroed: the
formatting discarded them, so the parse cannot recover them. -/
theorem tryParse_fmtT1 (d : DateTime) (hd : d.valid) :
    try_parse_dt (fmtT1 d) =
      some ⟨d.year, d.month, d.day, d.hour, d.minute, d.second, 0⟩ := by
  have e1 := (strptime1_space d hd).trans (mkDT_zero_of_valid d hd)
  simp only [try_parse_dt, fmtT1, toList_mk, DATETIME_FORMATS, tryFormats, e1]

/-- Parsing the fraction-free T-separated rendering of any valid
DateTime likewise yields the DateTime with its microseconds zeroed. -/
theorem tryParse_fmtT3 (d : DateTime) (hd : d.valid) :
    try_parse_dt (fmtT3 d) =
      some ⟨d.year, d.month, d.day, d.hour, d.minute, d.second, 0⟩ := by
  have e1 := strptime1_on_T_none d hd []
  have e2 := strptime2_on_T_none d hd []
  rw [List.append_nil] at e1 e2
  have e3 := (strptime3_T d hd).trans (mkDT_zero_of_valid d hd)
  simp only [try_parse_dt, fmtT3, toList_mk, DATETIME_FORMATS, tryFormats,
    e1, e2, e3]

/-- C3 counterexample: formatting the valid DateTime
2025-01-01T00:00:00.000001 with either template without fractional
seconds and parsing the result does *not* return the original value —
the microsecond is lost in formatting, so both round trips yield
microsecond 0. -/
theorem roundtrip_c3_counterexample :
    (⟨2025, 1, 1, 0, 0, 0, 1⟩ : DateTime).valid ∧
    try_parse_dt (fmtT1 ⟨2025, 1, 1, 0, 0, 0, 1⟩) =
      some ⟨2025, 1, 1, 0, 0, 0, 0⟩ ∧
    try_parse_dt (fmtT1 ⟨2025, 1, 1, 0, 0, 0, 1⟩) ≠
      some ⟨2025, 1, 1, 0, 0, 0, 1⟩ ∧
    try_parse_dt (fmtT3 ⟨2025, 1, 1, 0, 0, 0, 1⟩) =
      some ⟨2025, 1, 1, 0, 0, 0, 0⟩ ∧
    try_parse_dt (fmtT3 ⟨2025, 1, 1, 0, 0, 0, 1⟩) ≠
      some ⟨2025, 1, 1, 0, 0, 0, 1⟩ := by
  refine ⟨by decide, by decide, by decide, by decide, by decide⟩

/-- C3 (amended): for every valid DateTime, formatting with either of
the two templates carrying fractional seconds and parsing the result
with `try_parse_dt` returns an equal DateTime; for each of the two
templates without fractional seconds, the round trip returns an equal
DateTime *exactly* when the DateTime has microsecond 0 — in both
directions: microsecond 0 gives back the original, and a nonzero
microsecond never does, since formatting discards the microseconds. -/
theorem roundtrip_c3 (d : DateTime) (hd : d.valid) :
    try_parse_dt (fmtT2 d) = some d ∧
    try_parse_dt (fmtT4 d) = some d ∧
    (try_parse_dt (fmtT1 d) = some d ↔ d.microsecond = 0) ∧
    (try_parse_dt (fmtT3 d) = some d ↔ d.microsecond = 0) := by
  have hmk : mkDT d.year d.month d.day d.hour d.minute d.second d.microsecond =
      some d := mkDT_of_valid d hd
  refine ⟨?_, ?_, ?_, ?_⟩
  · have e1 := strptime1_space_frac_none d hd
    have e2 := (strptime2_space d hd).trans hmk
    simp only [try_parse_dt, fmtT2, toList_mk, DATETIME_FORMATS, tryFormats,
      e1, e2]
  · have e1 := strptime1_on_T_none d hd ('.' :: pad6 d.microsecond)
    have e2 := strptime2_on_T_none d hd ('.' :: pad6 d.microsecond)
    have e3 := strptime3_T_frac_none d hd
    have e4 := (strptime4_T d hd).trans hmk
    simp only [try_parse_dt, fmtT4, toList_mk, DATETIME_FORMATS, tryFormats,
      e1, e2, e3, e4]
  · rw [tryParse_fmtT1 d hd]
    constructor
    · intro h
      injection h with h2
      exact (congrArg DateTime.microsecond h2).symm
    · intro h0
      rw [← h0]
  · rw [tryParse_fmtT3 d hd]
    constructor
    · intro h
      injection h with h2
      exact (congrArg DateTime.microsecond h2).symm
    · intro h0
      rw [← h0]

/-- C3 witness: the amended round trip evaluated at the valid
DateTime 2025-08-14T10:22:45.123456 — the fractional templates give
it back, the fraction-free ones do not — and at 2025-08-14T10:22:45,
which all four templates round-trip. -/
theorem roundtrip_c3_witness :
    (⟨2025, 8, 14, 10, 22, 45, 123456⟩ : DateTime).valid ∧
    try_parse_dt (fmtT2 ⟨2025, 8, 14, 10, 22, 45, 123456⟩) =
      some ⟨2025, 8, 14, 10, 22, 45, 123456⟩ ∧
    try_parse_dt (fmtT4 ⟨2025, 8, 14, 10, 22, 45, 123456⟩) =
      some ⟨2025, 8, 14, 10, 22, 45, 123456⟩ ∧
    try_parse_dt (fmtT1 ⟨2025, 8, 14, 10, 22, 45, 123456⟩) ≠
      some ⟨2025, 8, 14, 10, 22, 45, 123456⟩ ∧
    try_parse_dt (fmtT3 ⟨2025, 8, 14, 10, 22, 45, 123456⟩) ≠
      some ⟨2025, 8, 14, 10, 22, 45, 123456⟩ ∧
    try_parse_dt (fmtT1 ⟨2025, 8, 14, 10, 22, 45, 0⟩) =
      some ⟨2025, 8, 14, 10, 22, 45, 0⟩ ∧
    try_parse_dt (fmtT3 ⟨2025, 8, 14, 10, 22, 45, 0⟩) =
      some ⟨2025, 8, 14, 10, 22, 45, 0⟩ :=
  ⟨by decide,
   (roundtrip_c3 ⟨2025, 8, 14, 10, 22, 45, 123456⟩ (by decide)).1,
   (roundtrip_c3 ⟨2025, 8, 14, 10, 22, 45, 123456⟩ (by decide)).2.1,
   fun h => by
     exact absurd
       (((roundtrip_c3 ⟨2025, 8, 14, 10, 22, 45, 123456⟩ (by decide)).2.2.1).mp h)
       (by decide),
   fun h => by
     exact absurd
       (((roundtrip_c3 ⟨2025, 8, 14, 10, 22, 45, 123456⟩ (by decide)).2.2.2).mp h)
       (by decide),
   ((roundtrip_c3 ⟨2025, 8, 14, 10, 22, 45, 0⟩ (by decide)).2.2.1).mpr rfl,
   ((roundtrip_c3 ⟨2025, 8, 14, 10, 22, 45, 0⟩ (by decide)).2.2.2).mpr rfl⟩

end LogParser
